import Mathlib

/-!
# Protocol dispatch, request parsing and tunnel handshake of `proxy/proxy.go`

A shallow embedding of the sequential part of the proxy: the first-byte
dispatcher (`handleConnection`), the SOCKS5 request parser (`handleSOCKS5`),
the HTTP request parser and rebuilder (`handleHTTP`), the tunnel handshake
(`handleTunnel`, up to the point where the two relay directions are started)
and each of the two relay directions taken on its own.

Conventions.

* A Go `string` or `[]byte` is a list of byte values (`Bytes`).  Bytes are
  natural numbers; where a width matters (the port) the bound is a hypothesis.
* A client socket is the list of the reads it will still deliver (`Conn`): each
  element is what one `conn.Read` with a large enough buffer returns, the end
  of the list is EOF, an error or the deadline.
* Everything outside the program (the dialer, the remote end of the tunnel,
  timing of the early-data window, whether the client socket accepts writes,
  the Unicode case tables of the standard library) is a field of `Env`.
* A handler returns a `Trace`: the calls it made, in order.  A read that fails has read
  the socket to its end, so the trace of a handler that gives up on a failed read has no
  read left on the socket.
-/

namespace Proxy

/-- Byte strings: Go `string` and `[]byte`. -/
abbrev Bytes := List Nat

/-- The bytes of an ASCII literal. -/
def str (s : String) : Bytes := s.toList.map Char.toNat

/-- Client socket: the reads still to be delivered. -/
abbrev Conn := List Bytes

def ModeSOCKS5 : Nat := 1
def ModeHTTPConnect : Nat := 2
def ModeHTTPProxy : Nat := 3

/-- Frame type `websocket.TextMessage`. -/
def TextMessage : Nat := 1
/-- Frame type `websocket.BinaryMessage`. -/
def BinaryMessage : Nat := 2

/-- What the program does not control. -/
structure Env where
  /-- Field `proxyIP` of `ProxyServer` (empty when not configured). -/
  proxyIP : Bytes
  /-- Whether `DialWithECH(2)` returns a transport. -/
  dialOk : Bool
  /-- Whether `conn.Write` on the client socket succeeds. -/
  writeOk : Bool
  /-- Whether the client delivers a read inside the one second early-data window. -/
  earlyData : Bool
  /-- Whether `WriteMessage` of the connect frame succeeds. -/
  wsWriteOk : Bool
  /-- Result of the single `ReadMessage` of the handshake: frame type and payload, or an error. -/
  wsReply : Option (Nat × Bytes)
  /-- The library's `strings.Map(unicode.ToLower, s)`, applied only to strings with a byte above 0x7f. -/
  unicodeLower : Bytes → Bytes

/-- Arguments of one call of `handleTunnel`. -/
structure TunnelCall where
  target : Bytes
  mode : Nat
  firstFrame : Option Bytes
  deriving DecidableEq, Repr

/-- Calls made while serving one connection. -/
structure Trace where
  /-- Arguments of `conn.Write`, in order. -/
  clientWrites : List Bytes := []
  /-- Number of calls of `DialWithECH`. -/
  dials : Nat := 0
  /-- Arguments of `WriteMessage` on the tunnel, in order. -/
  wsWrites : List (Nat × Bytes) := []
  /-- The call of `handleTunnel`, if one was made. -/
  tunnel : Option TunnelCall := none
  /-- Whether `handleTunnel` returned an error. -/
  failed : Bool := false
  /-- Whether the relay directions were started. -/
  relaying : Bool := false
  /-- Reads left on the client socket. -/
  conn : Conn := []
  deriving DecidableEq, Repr

/-! ## Library functions -/

/-- One `conn.Read(p)` with `len(p) = max`: at most `max` bytes of the next delivery. -/
def connRead : Conn → Nat → Option (Bytes × Conn)
  | [], _ => none
  | ch :: rest, max =>
    match ch.drop max with
    | [] => some (ch, rest)
    | d :: ds => some (ch.take max, (d :: ds) :: rest)

/-- Library `io.ReadFull(conn, buf)` with `len(buf) = n`: reads until `n` bytes are there,
fails when the socket ends first. -/
def readFull : Conn → Nat → Option (Bytes × Conn)
  | c, 0 => some ([], c)
  | [], _ + 1 => none
  | ch :: rest, n + 1 =>
    match ch.drop (n + 1) with
    | d :: ds => some (ch.take (n + 1), (d :: ds) :: rest)
    | [] =>
      match readFull rest (n + 1 - ch.length) with
      | none => none
      | some (bs, c) => some (ch ++ bs, c)

/-- Conversion `string(b)` of a byte: the UTF-8 encoding of the code point `b`. -/
def runeString (b : Nat) : Bytes :=
  if b < 0x80 then [b] else [0xC0 + b / 64, 0x80 + b % 64]

/-- Decimal digits, as `%d` prints a non-negative integer. -/
def fmtD (n : Nat) : Bytes := (Nat.toDigits 10 n).map Char.toNat

/-- Lower-case hexadecimal digits without leading zeros. -/
def fmtX (n : Nat) : Bytes := (Nat.toDigits 16 n).map Char.toNat

/-- Dotted decimal form of four bytes. -/
def dotted (a b c d : Nat) : Bytes :=
  fmtD a ++ str "." ++ fmtD b ++ str "." ++ fmtD c ++ str "." ++ fmtD d

/-- Number of zero fields at the head of a list of 16-bit fields. -/
def zeroRunLen : List Nat → Nat
  | [] => 0
  | f :: fs => if f = 0 then zeroRunLen fs + 1 else 0

/-- Start and end of the field run that `::` replaces: the leftmost longest run of at least
two zero fields, `(255, 255)` when there is none. -/
def zeroRun (fields : List Nat) : Nat × Nat :=
  (List.range 8).foldl
    (fun (z : Nat × Nat) i =>
      let l := zeroRunLen (fields.drop i)
      if 2 ≤ l ∧ z.2 - z.1 < l then (i, i + l) else z)
    (255, 255)

/-- The printing loop of the IPv6 text form, from field `i` on. -/
def ip6Print (fields : List Nat) (zs ze : Nat) : Nat → Nat → Bytes
  | 0, _ => []
  | fuel + 1, i =>
    if 8 ≤ i then []
    else if i = zs then
      str "::" ++ (if 8 ≤ ze then [] else fmtX (fields.getD ze 0) ++ ip6Print fields zs ze fuel (ze + 1))
    else
      (if 0 < i then str ":" else []) ++ fmtX (fields.getD i 0) ++ ip6Print fields zs ze fuel (i + 1)

/-- The eight 16-bit fields of sixteen bytes. -/
def ip6Fields : Bytes → List Nat
  | hi :: lo :: rest => (hi * 256 + lo) :: ip6Fields rest
  | _ => []

/-- Library `net.IP(buf).String()`: dotted decimal for four bytes and for an IPv4-mapped
sixteen bytes, the compressed IPv6 text for other sixteen bytes. -/
def ipString (buf : Bytes) : Bytes :=
  match buf with
  | [] => str "<nil>"
  | [a, b, c, d] => dotted a b c d
  | _ =>
    if buf.length = 16 then
      if buf.take 10 = List.replicate 10 0 ∧ buf.getD 10 0 = 0xff ∧ buf.getD 11 0 = 0xff then
        dotted (buf.getD 12 0) (buf.getD 13 0) (buf.getD 14 0) (buf.getD 15 0)
      else
        let fields := ip6Fields buf
        let z := zeroRun fields
        ip6Print fields z.1 z.2 8 0
    else
      str "?" ++ buf.flatMap (fun b => (if b < 16 then str "0" else []) ++ fmtX b)

/-- Length of the white-space character (`unicode.IsSpace`) encoded at the head of `s`,
0 when there is none. -/
def spaceLen (s : Bytes) : Nat :=
  match s with
  | [] => 0
  | b :: rest =>
    if b = 9 ∨ b = 10 ∨ b = 11 ∨ b = 12 ∨ b = 13 ∨ b = 32 then 1
    else if b = 0xC2 then
      (match rest with
       | c :: _ => if c = 0x85 ∨ c = 0xA0 then 2 else 0
       | [] => 0)
    else if b = 0xE1 then (if rest.take 2 = [0x9A, 0x80] then 3 else 0)
    else if b = 0xE2 then
      (match rest with
       | c1 :: c2 :: _ =>
         if c1 = 0x80 ∧ ((0x80 ≤ c2 ∧ c2 ≤ 0x8A) ∨ c2 = 0xA8 ∨ c2 = 0xA9 ∨ c2 = 0xAF) then 3
         else if c1 = 0x81 ∧ c2 = 0x9F then 3 else 0
       | _ => 0)
    else if b = 0xE3 then (if rest.take 2 = [0x80, 0x80] then 3 else 0)
    else 0

/-- Length of the white-space character encoded at the end of the string whose reversal is `r`. -/
def spaceLenRev (r : Bytes) : Nat :=
  match r with
  | [] => 0
  | b :: rest =>
    if b = 9 ∨ b = 10 ∨ b = 11 ∨ b = 12 ∨ b = 13 ∨ b = 32 then 1
    else if (b = 0x85 ∨ b = 0xA0) ∧ rest.take 1 = [0xC2] then 2
    else if b = 0x80 ∧ rest.take 2 = [0x9A, 0xE1] then 3
    else if ((0x80 ≤ b ∧ b ≤ 0x8A) ∨ b = 0xA8 ∨ b = 0xA9 ∨ b = 0xAF) ∧ rest.take 2 = [0x80, 0xE2] then 3
    else if b = 0x9F ∧ rest.take 2 = [0x81, 0xE2] then 3
    else if b = 0x80 ∧ rest.take 2 = [0x80, 0xE3] then 3
    else 0

/-- Removes the white-space characters found by `len` at the head, one after the other. -/
def trimWith (len : Bytes → Nat) : Nat → Bytes → Bytes
  | 0, s => s
  | fuel + 1, s => if len s = 0 then s else trimWith len fuel (s.drop (len s))

/-- Library `strings.TrimSpace`. -/
def trimSpace (s : Bytes) : Bytes :=
  let l := trimWith spaceLen s.length s
  (trimWith spaceLenRev l.length l.reverse).reverse

/-- Loop of `strings.Fields`: `skip` bytes of a white-space character are still to be passed,
`cur` is the field being collected. -/
def fieldsAux : Nat → Bytes → Bytes → List Bytes
  | _, cur, [] => if cur = [] then [] else [cur]
  | skip + 1, cur, _ :: rest => fieldsAux skip cur rest
  | 0, cur, b :: rest =>
    if spaceLen (b :: rest) = 0 then fieldsAux 0 (cur ++ [b]) rest
    else if cur = [] then fieldsAux (spaceLen (b :: rest) - 1) [] rest
    else cur :: fieldsAux (spaceLen (b :: rest) - 1) [] rest

/-- Library `strings.Fields`. -/
def fields (s : Bytes) : List Bytes := fieldsAux 0 [] s

/-- Library `strings.TrimRight(s, "\r\n")`. -/
def trimRightCRLF (s : Bytes) : Bytes :=
  (s.reverse.dropWhile (fun c => c = 13 ∨ c = 10)).reverse

/-- Library `strings.Index(s, sep)` for a one-byte `sep`; `none` stands for -1. -/
def indexByte (c : Nat) : Bytes → Option Nat
  | [] => none
  | b :: bs => if b = c then some 0 else (indexByte c bs).map (· + 1)

/-- Library `strings.ToLower`: ASCII letters are lowered; a string with a byte above 0x7f
goes through the Unicode tables. -/
def toLower (env : Env) (s : Bytes) : Bytes :=
  if s.all (· < 0x80) then s.map (fun c => if 65 ≤ c ∧ c ≤ 90 then c + 32 else c)
  else env.unicodeLower s

/-- Library `strconv.Atoi` on a 64-bit platform: an optional sign and decimal digits,
an error (`none`) otherwise or when the value does not fit. -/
def atoi (s : Bytes) : Option Int :=
  let digits := match s with
    | 45 :: r => r
    | 43 :: r => r
    | _ => s
  if digits = [] ∨ ¬ digits.all (fun c => 48 ≤ c ∧ c ≤ 57) then none
  else
    let v : Int := digits.foldl (fun n c => n * 10 + (c - 48)) 0
    let i : Int := if s.head? = some 45 then -v else v
    if -9223372036854775808 ≤ i ∧ i ≤ 9223372036854775807 then some i else none

/-! ## The buffered reader of `handleHTTP` -/

/-- A `bufio.Reader` (buffer size 4096): `buf` holds the bytes read from the source and not
yet handed out, `src` is the source. -/
structure Reader where
  buf : Bytes
  src : Conn
  deriving DecidableEq, Repr

/-- One unit per pending read of the source and per pending byte: a bound on the number of
reads that can still deliver something. -/
def units (src : Conn) : List Unit :=
  src.flatMap (fun ch => () :: ch.map (fun _ => ()))

/-- Method `fill` of the reader: reads the source once into the free part of the buffer,
again (at most 100 times) while a read delivers nothing; `none` on a read error. -/
def fill : Nat → Bytes → Conn → Option (Bytes × Conn)
  | 0, _, _ => none
  | tries + 1, buf, src =>
    match connRead src (4096 - buf.length) with
    | none => none
    | some ([], src') => fill tries buf src'
    | some (b :: bs, src') => some (buf ++ b :: bs, src')

/-- Splits after the first occurrence of the delimiter. -/
def splitAfter (d : Nat) : Bytes → Option (Bytes × Bytes)
  | [] => none
  | b :: bs =>
    if b = d then some ([b], bs)
    else
      match splitAfter d bs with
      | none => none
      | some (l, r) => some (b :: l, r)

/-- Loop of `ReadString`: `acc` holds the full buffers already collected. -/
def readStringAux (delim : Nat) : List Unit → Bytes → Reader → Option (Bytes × Reader)
  | [], acc, r =>
    match splitAfter delim r.buf with
    | some (l, rest) => some (acc ++ l, ⟨rest, r.src⟩)
    | none => none
  | _ :: fuel, acc, r =>
    match splitAfter delim r.buf with
    | some (l, rest) => some (acc ++ l, ⟨rest, r.src⟩)
    | none =>
      let full := decide (4096 ≤ r.buf.length)
      match fill 100 (if full then [] else r.buf) r.src with
      | none => none
      | some (buf, src) => readStringAux delim fuel (if full then acc ++ r.buf else acc) ⟨buf, src⟩

/-- Method `ReadString(delim)` of the reader: the bytes up to and including the first
delimiter, `none` when the source ends before one is found. -/
def readString (delim : Nat) (r : Reader) : Option (Bytes × Reader) :=
  readStringAux delim (units r.src) [] r

/-- Method `Read(p)` of the reader with `len(p) = n > 0`: hands out buffered bytes when there
are any, otherwise reads the source once (directly into `p` when `p` is at least as large as
the buffer). -/
def bufRead (r : Reader) (n : Nat) : Option (Bytes × Reader) :=
  if r.buf = [] then
    if 4096 ≤ n then
      match connRead r.src n with
      | none => none
      | some (bs, src) => some (bs, ⟨[], src⟩)
    else
      match connRead r.src 4096 with
      | none => none
      | some (bs, src) => some (bs.take n, ⟨bs.drop n, src⟩)
  else some (r.buf.take n, ⟨r.buf.drop n, r.src⟩)

/-- Loop of `io.ReadFull(reader, body)`. -/
def readFullRAux : Nat → Reader → Nat → Option (Bytes × Reader)
  | _, r, 0 => some ([], r)
  | 0, _, _ + 1 => none
  | fuel + 1, r, n + 1 =>
    match bufRead r (n + 1) with
    | none => none
    | some (bs, r') =>
      match readFullRAux fuel r' (n + 1 - bs.length) with
      | none => none
      | some (more, r'') => some (bs ++ more, r'')

/-- Library `io.ReadFull(reader, body)` with `len(body) = n`. -/
def readFullR (r : Reader) (n : Nat) : Option (Bytes × Reader) :=
  readFullRAux (n + r.src.length + 1) r n

/-! ## Reply helpers and the tunnel handshake -/

/-- Function `sendErrorResponse`: the writes it makes. -/
def sendErrorResponse (mode : Nat) : List Bytes :=
  if mode = ModeSOCKS5 then [[0x05, 0x04, 0x00, 0x01, 0x00, 0x00, 0x00, 0x00, 0x00, 0x00]]
  else if mode = ModeHTTPConnect ∨ mode = ModeHTTPProxy then [str "HTTP/1.1 502 Bad Gateway\r\n\r\n"]
  else []

/-- Function `sendSuccessResponse`: the writes it makes. -/
def sendSuccessResponse (mode : Nat) : List Bytes :=
  if mode = ModeSOCKS5 then [[0x05, 0x00, 0x00, 0x01, 0x00, 0x00, 0x00, 0x00, 0x00, 0x00]]
  else if mode = ModeHTTPConnect then [str "HTTP/1.1 200 Connection Established\r\n\r\n"]
  else []

/-- The opportunistic early-data read of `handleTunnel` (lines 356-371): the first frame and
the socket afterwards. -/
def earlyRead (env : Env) (conn : Conn) (mode : Nat) (firstFrame : Option Bytes) :
    Option Bytes × Conn :=
  if firstFrame = none ∧ mode = ModeSOCKS5 then
    match (if env.earlyData then connRead conn (32 * 1024) else none) with
    | none => (none, conn)
    | some (bs, conn') =>
      if 0 < bs.length ∧ bs.length ≤ 32 * 1024 then (some bs, conn')
      else if 32 * 1024 < bs.length then (some (bs.take (32 * 1024)), conn')
      else (none, conn')
  else (firstFrame, conn)

/-- The connect control frame (lines 373-379). -/
def connectMsg (proxyIP target : Bytes) (firstFrame : Option Bytes) : Bytes :=
  if proxyIP ≠ [] then
    ((str "CONNECT:" ++ target ++ str "|") ++ firstFrame.getD []) ++ (str "|" ++ proxyIP)
  else
    (str "CONNECT:" ++ target ++ str "|") ++ firstFrame.getD []

/-- Function `handleTunnel`, up to the start of the two relay directions.  The keepalive
ticker only sends pings and is left out. -/
def handleTunnel (env : Env) (conn : Conn) (target : Bytes) (mode : Nat)
    (firstFrame : Option Bytes) : Trace :=
  let call : TunnelCall := ⟨target, mode, firstFrame⟩
  if ¬ env.dialOk then
    { clientWrites := sendErrorResponse mode, dials := 1, tunnel := some call, failed := true,
      conn := conn }
  else
    let early := earlyRead env conn mode firstFrame
    let msg := connectMsg env.proxyIP target early.1
    if ¬ env.wsWriteOk then
      { clientWrites := sendErrorResponse mode, dials := 1, wsWrites := [(TextMessage, msg)],
        tunnel := some call, failed := true, conn := early.2 }
    else
      match env.wsReply with
      | none =>
        { clientWrites := sendErrorResponse mode, dials := 1, wsWrites := [(TextMessage, msg)],
          tunnel := some call, failed := true, conn := early.2 }
      | some (_, response) =>
        if (str "ERROR:").isPrefixOf response then
          { clientWrites := sendErrorResponse mode, dials := 1, wsWrites := [(TextMessage, msg)],
            tunnel := some call, failed := true, conn := early.2 }
        else if response ≠ str "CONNECTED" then
          { clientWrites := sendErrorResponse mode, dials := 1, wsWrites := [(TextMessage, msg)],
            tunnel := some call, failed := true, conn := early.2 }
        else if sendSuccessResponse mode ≠ [] ∧ ¬ env.writeOk then
          { clientWrites := sendSuccessResponse mode, dials := 1,
            wsWrites := [(TextMessage, msg)], tunnel := some call, failed := true,
            conn := early.2 }
        else
          { clientWrites := sendSuccessResponse mode, dials := 1,
            wsWrites := [(TextMessage, msg)], tunnel := some call, relaying := true,
            conn := early.2 }

/-! ## The SOCKS5 handler -/

/-- The fixed ten-byte SOCKS5 reply with reply code `rep`. -/
def socksReply (rep : Nat) : Bytes := [0x05, rep, 0x00, 0x01, 0x00, 0x00, 0x00, 0x00, 0x00, 0x00]

/-- Address parsing of `handleSOCKS5` (lines 140-170): the host text and the socket after it;
`none` when a read fails, `some none` for an address type outside 1, 3, 4. -/
def readHost (conn : Conn) (atyp : Nat) : Option (Option (Bytes × Conn)) :=
  if atyp = 0x01 then
    match readFull conn 4 with
    | none => none
    | some (buf, c) => some (some (ipString buf, c))
  else if atyp = 0x03 then
    match readFull conn 1 with
    | none => none
    | some (buf, c) =>
      match readFull c (buf.headD 0) with
      | none => none
      | some (domainBuf, c') => some (some (domainBuf, c'))
  else if atyp = 0x04 then
    match readFull conn 16 with
    | none => none
    | some (buf, c) => some (some (ipString buf, c))
  else some none

/-- Function `handleSOCKS5` after the method-selection reply (lines 128-197). -/
def socks5Request (env : Env) (conn : Conn) : Trace :=
  match readFull conn 4 with
  | none => { conn := [] }
  | some (buf, c) =>
    if buf.getD 0 0 ≠ 5 then { conn := c }
    else
      let command := buf.getD 1 0
      let atyp := buf.getD 3 0
      match readHost c atyp with
      | none => { conn := [] }
      | some none => { clientWrites := [socksReply 0x08], conn := c }
      | some (some (host, c')) =>
        match readFull c' 2 with
        | none => { conn := [] }
        | some (pbuf, c'') =>
          let port := (pbuf.getD 0 0) <<< 8 ||| (pbuf.getD 1 0)
          if command ≠ 0x01 then { clientWrites := [socksReply 0x07], conn := c'' }
          else
            let target :=
              if atyp = 0x04 then str "[" ++ host ++ str "]:" ++ fmtD port
              else host ++ str ":" ++ fmtD port
            handleTunnel env c'' target ModeSOCKS5 none

/-- Puts an earlier client write in front of a trace. -/
def Trace.after (w : Bytes) (t : Trace) : Trace := { t with clientWrites := w :: t.clientWrites }

/-- Function `handleSOCKS5`. -/
def handleSOCKS5 (env : Env) (conn : Conn) (firstByte : Nat) : Trace :=
  if firstByte ≠ 0x05 then { conn := conn }
  else
    match readFull conn 1 with
    | none => { conn := [] }
    | some (buf, c) =>
      match readFull c (buf.headD 0) with
      | none => { conn := [] }
      | some (_, c') =>
        if ¬ env.writeOk then { clientWrites := [[0x05, 0x00]], conn := c' }
        else (socks5Request env c').after [0x05, 0x00]

/-! ## The HTTP handler -/

/-- The header map of `handleHTTP`: most recent assignment first. -/
abbrev Headers := List (Bytes × Bytes)

/-- Map lookup `headers[key]`: the empty string when the key is absent. -/
def Headers.get (h : Headers) (key : Bytes) : Bytes :=
  match h.find? (fun kv => kv.1 = key) with
  | some kv => kv.2
  | none => []

/-- One pass of the header loop on a line that is not empty (lines 235-240). -/
def recordHeader (env : Env) (headers : Headers) (line : Bytes) : Headers :=
  match indexByte 58 line with
  | none => headers
  | some idx =>
    if 0 < idx then
      (toLower env (trimSpace (line.take idx)), trimSpace (line.drop (idx + 1))) :: headers
    else headers

/-- The header loop of `handleHTTP` (lines 226-241). -/
def readHeadersAux (env : Env) : List Unit → Reader → Headers → List Bytes →
    Option (Headers × List Bytes × Reader)
  | [], _, _, _ => none
  | _ :: fuel, r, headers, headerLines =>
    match readString 10 r with
    | none => none
    | some (line, r') =>
      if trimRightCRLF line = [] then some (headers, headerLines, r')
      else
        readHeadersAux env fuel r' (recordHeader env headers (trimRightCRLF line))
          (headerLines ++ [trimRightCRLF line])

/-- The header loop, started with no header. -/
def readHeaders (env : Env) (r : Reader) : Option (Headers × List Bytes × Reader) :=
  readHeadersAux env (() :: r.buf.map (fun _ => ()) ++ units r.src) r [] []

/-- Target and path of a forward request (lines 255-271). -/
def splitURL (requestURL host : Bytes) : Bytes × Bytes :=
  if (str "http://").isPrefixOf requestURL then
    let urlWithoutScheme := requestURL.drop 7
    match indexByte 47 urlWithoutScheme with
    | some idx =>
      if 0 < idx then (urlWithoutScheme.take idx, urlWithoutScheme.drop idx)
      else (urlWithoutScheme, str "/")
    | none => (urlWithoutScheme, str "/")
  else (host, requestURL)

/-- Port defaulting (lines 278-280). -/
def withPort (target : Bytes) : Bytes :=
  if 58 ∉ target then target ++ str ":80" else target

/-- The header part of the rebuilt request (lines 285-292). -/
def writeHeaders (env : Env) (headerLines : List Bytes) : Bytes :=
  headerLines.foldl
    (fun builder line =>
      let keyLower := toLower env (trimSpace (line.takeWhile (· ≠ 58)))
      if keyLower ≠ str "proxy-connection" ∧ keyLower ≠ str "proxy-authorization" then
        builder ++ line ++ str "\r\n"
      else builder)
    []

/-- The body of the rebuilt request (lines 295-303) and the reader afterwards.  A failed
`io.ReadFull` has read the socket to its end, so nothing is pending after it. -/
def readBody (r : Reader) (contentLength : Bytes) : Bytes × Reader :=
  if contentLength ≠ [] then
    match atoi contentLength with
    | none => ([], r)
    | some length =>
      if 0 < length ∧ length < 10 * 1024 * 1024 then
        match readFullR r length.toNat with
        | none => ([], ⟨[], []⟩)
        | some (body, r') => (body, r')
      else ([], r)
  else ([], r)

/-- The methods of the forward branch. -/
def forwardMethods : List Bytes :=
  [str "GET", str "POST", str "PUT", str "DELETE", str "HEAD", str "OPTIONS", str "PATCH",
   str "TRACE"]

/-- Function `handleHTTP`. -/
def handleHTTP (env : Env) (conn : Conn) (firstByte : Nat) : Trace :=
  let reader : Reader := ⟨[], runeString firstByte :: conn⟩
  match readString 10 reader with
  | none => { conn := [] }
  | some (requestLine, r) =>
    match fields requestLine with
    | method :: requestURL :: httpVersion :: _ =>
      match readHeaders env r with
      | none => { conn := [] }
      | some (headers, headerLines, r') =>
        if method = str "CONNECT" then
          handleTunnel env r'.src requestURL ModeHTTPConnect none
        else if method ∈ forwardMethods then
          let tp := splitURL requestURL (headers.get (str "host"))
          if tp.1 = [] then
            { clientWrites := [str "HTTP/1.1 400 Bad Request\r\n\r\n"], conn := r'.src }
          else
            let head := method ++ str " " ++ tp.2 ++ str " " ++ httpVersion ++ str "\r\n"
              ++ writeHeaders env headerLines ++ str "\r\n"
            let body := readBody r' (headers.get (str "content-length"))
            handleTunnel env body.2.src (withPort tp.1) ModeHTTPProxy (some (head ++ body.1))
        else
          { clientWrites := [str "HTTP/1.1 405 Method Not Allowed\r\n\r\n"], conn := r'.src }
    | _ => { conn := r.src }

/-! ## The dispatcher -/

/-- Handlers a connection can be routed to. -/
inductive Route where
  | socks5
  | http
  | unknown
  deriving DecidableEq, Repr

/-- The switch on the first byte in `handleConnection` (lines 93-100). -/
def route (firstByte : Nat) : Route :=
  if firstByte = 0x05 then .socks5
  else if firstByte ∈ [67, 71, 80, 72, 68, 79, 84] then .http
  else .unknown

/-- Function `handleConnection`. -/
def handleConnection (env : Env) (conn : Conn) : Trace :=
  match connRead conn 1 with
  | none => { conn := conn }
  | some (buf, c) =>
    match buf with
    | [] => { conn := c }
    | firstByte :: _ =>
      match route firstByte with
      | .socks5 => handleSOCKS5 env c firstByte
      | .http => handleHTTP env c firstByte
      | .unknown => { conn := c }

/-! ## The two relay directions -/

/-- What one relay direction did. -/
structure Relay where
  /-- Arguments of `WriteMessage` on the tunnel, in order. -/
  wsWrites : List (Nat × Bytes) := []
  /-- Arguments of `conn.Write` on the client socket, in order. -/
  clientWrites : List Bytes := []
  /-- Whether `closeDone` was called. -/
  done : Bool := false
  deriving DecidableEq, Repr

/-- Loop of the client-to-tunnel direction (lines 417-439), reading into a 32 KiB buffer;
`wsOk k` tells whether the `k`-th data frame of this direction can be written. -/
def clientToTunnelAux (wsOk : Nat → Bool) : List Unit → Nat → Conn → Relay
  | [], _, _ => { wsWrites := [(TextMessage, str "CLOSE")], done := true }
  | _ :: fuel, k, conn =>
    match connRead conn (32 * 1024) with
    | none => { wsWrites := [(TextMessage, str "CLOSE")], done := true }
    | some (bs, conn') =>
      if ¬ wsOk k then { wsWrites := [(BinaryMessage, bs)], done := true }
      else
        { wsWrites := (BinaryMessage, bs) :: (clientToTunnelAux wsOk fuel (k + 1) conn').wsWrites,
          done := (clientToTunnelAux wsOk fuel (k + 1) conn').done }

/-- The client-to-tunnel direction on the reads the client socket still delivers. -/
def clientToTunnel (wsOk : Nat → Bool) (conn : Conn) : Relay :=
  clientToTunnelAux wsOk (units conn) 0 conn

/-- The tunnel-to-client direction (lines 441-461) on the frames `ReadMessage` still
delivers; the end of the list is a read error. -/
def tunnelToClient (env : Env) : List (Nat × Bytes) → Relay
  | [] => { done := true }
  | (mt, msg) :: rest =>
    if mt = TextMessage ∧ msg = str "CLOSE" then { done := true }
    else if ¬ env.writeOk then { clientWrites := [msg], done := true }
    else
      { clientWrites := msg :: (tunnelToClient env rest).clientWrites,
        done := (tunnelToClient env rest).done }

/-! ## Notions of the specification -/

/-- The name of a header line: what stands before its first colon (the whole line when it
has none), without the white space around it. -/
def headerName (line : Bytes) : Bytes := trimSpace (line.takeWhile (· ≠ 58))

/-- Equality of two strings after `strings.ToLower`, the comparison the code makes. -/
def equalFold (env : Env) (a b : Bytes) : Bool := decide (toLower env a = toLower env b)

/-- The test of the code on a header line (lines 286-288): its name, lowered by
`strings.ToLower`, is `proxy-connection` or `proxy-authorization`. -/
def isProxyHeader (env : Env) (line : Bytes) : Bool :=
  equalFold env (headerName line) (str "Proxy-Connection") ||
    equalFold env (headerName line) (str "Proxy-Authorization")

/-- The header map recorded from the header lines `ls`, as the header loop builds it. -/
def headersOf (env : Env) (ls : List Bytes) : Headers := ls.foldl (recordHeader env) []

/-- ASCII letters lowered, every other byte kept. -/
def asciiLower (s : Bytes) : Bytes := s.map (fun c => if 65 ≤ c ∧ c ≤ 90 then c + 32 else c)

/-- A header line whose name is `name` up to the case of ASCII letters: the case-insensitive
comparison of header names. -/
def namedIgnoringCase (line name : Bytes) : Bool :=
  decide (asciiLower (headerName line) = asciiLower name)

/-- The library's `strings.Map(unicode.ToLower, s)` on strings made of ASCII bytes and of the
two bytes `C4 B0` that encode U+0130 (capital I with dot above), which `unicode.ToLower` maps
to `i`: ASCII letters are lowered, `C4 B0` becomes `i`, every other byte is kept.  Other code
points above 0x7f are not covered. -/
def lowerRunes : Bytes → Bytes
  | [] => []
  | [c] => asciiLower [c]
  | c :: d :: rest =>
    if c = 0xC4 ∧ d = 0xB0 then 105 :: lowerRunes rest
    else asciiLower [c] ++ lowerRunes (d :: rest)

/-- An example environment: no fallback IP, every collaborator succeeds, nothing arrives in the
early-data window, `strings.ToLower` as far as `lowerRunes` covers it. -/
def envOK : Env :=
  { proxyIP := [], dialOk := true, writeOk := true, earlyData := false, wsWriteOk := true,
    wsReply := some (TextMessage, str "CONNECTED"), unicodeLower := lowerRunes }

/-! ## Reading a socket whose byte stream is known -/

theorem port_eq (hi lo : Nat) (h : lo < 256) : hi <<< 8 ||| lo = 256 * hi + lo := by
  rw [Nat.shiftLeft_eq, Nat.mul_comm]
  exact (Nat.mul_add_lt_is_or (i := 8) (by simpa using h) hi).symm

/-- Reading `n` bytes that the stream holds yields its first `n` bytes and leaves the rest. -/
theorem readFull_flatten (c : Conn) (n : Nat) (h : n ≤ c.flatten.length) :
    ∃ c', readFull c n = some (c.flatten.take n, c') ∧ c'.flatten = c.flatten.drop n := by
  induction c generalizing n with
  | nil =>
    have : n = 0 := by simpa using h
    subst this
    exact ⟨[], by simp [readFull]⟩
  | cons ch rest ih =>
    cases n with
    | zero => exact ⟨ch :: rest, by simp [readFull]⟩
    | succ n =>
      cases hd : ch.drop (n + 1) with
      | nil =>
        have hlen : ch.length ≤ n + 1 := List.drop_eq_nil_iff.mp hd
        have hle : n + 1 - ch.length ≤ rest.flatten.length := by
          simp only [List.flatten_cons, List.length_append] at h
          omega
        obtain ⟨c', h1, h2⟩ := ih (n + 1 - ch.length) hle
        refine ⟨c', ?_, ?_⟩
        · simp only [readFull, hd, h1, List.flatten_cons, List.take_append_eq_append_take,
            List.take_of_length_le hlen]
        · simp only [h2, List.flatten_cons, List.drop_append_eq_append_drop, hd, List.nil_append]
      | cons d ds =>
        have hlen : n + 1 < ch.length := by
          by_contra hc
          have := List.drop_eq_nil_iff.mpr (Nat.le_of_not_lt hc)
          rw [this] at hd
          cases hd
        refine ⟨(d :: ds) :: rest, ?_, ?_⟩
        · simp only [readFull, hd, List.flatten_cons]
          rw [List.take_append_of_le_length (Nat.le_of_lt hlen)]
        · simp only [List.flatten_cons]
          rw [List.drop_append_of_le_length (Nat.le_of_lt hlen), hd]

/-- A stream that starts with `xs` delivers `xs` to a read of `xs.length` bytes. -/
theorem readFull_of_flatten {c : Conn} {xs ys : Bytes} {n : Nat} (h : c.flatten = xs ++ ys)
    (hn : xs.length = n) : ∃ c', readFull c n = some (xs, c') ∧ c'.flatten = ys := by
  subst hn
  obtain ⟨c', h1, h2⟩ := readFull_flatten c xs.length (by simp [h])
  refine ⟨c', ?_, ?_⟩
  · rw [h1, h]; simp
  · rw [h2, h]; simp

/-! ## SOCKS5: symbolic execution on a known stream -/

theorem readHost_v4 {conn : Conn} {a b c d : Nat} {rest : Bytes}
    (h : conn.flatten = [a, b, c, d] ++ rest) :
    ∃ c', readHost conn 0x01 = some (some (dotted a b c d, c')) ∧ c'.flatten = rest := by
  obtain ⟨c', h1, h2⟩ := readFull_of_flatten (n := 4) h rfl
  exact ⟨c', by simp [readHost, h1, ipString], h2⟩

theorem readHost_domain {conn : Conn} {dom rest : Bytes}
    (h : conn.flatten = [dom.length] ++ (dom ++ rest)) :
    ∃ c', readHost conn 0x03 = some (some (dom, c')) ∧ c'.flatten = rest := by
  obtain ⟨c1, h1, h2⟩ := readFull_of_flatten (n := 1) h rfl
  obtain ⟨c2, h3, h4⟩ := readFull_of_flatten h2 rfl
  exact ⟨c2, by simp [readHost, h1, h3], h4⟩

theorem readHost_v6 {conn : Conn} {addr rest : Bytes} (hl : addr.length = 16)
    (h : conn.flatten = addr ++ rest) :
    ∃ c', readHost conn 0x04 = some (some (ipString addr, c')) ∧ c'.flatten = rest := by
  obtain ⟨c', h1, h2⟩ := readFull_of_flatten h hl
  exact ⟨c', by simp [readHost, h1], h2⟩

theorem readHost_other (conn : Conn) {atyp : Nat} (h1 : atyp ≠ 0x01) (h3 : atyp ≠ 0x03)
    (h4 : atyp ≠ 0x04) : readHost conn atyp = some none := by
  simp [readHost, h1, h3, h4]

/-- Method negotiation and the request header on a stream that holds them. -/
theorem handleSOCKS5_header (env : Env) {conn : Conn} {nm cmd rsv atyp : Nat}
    {methods rest : Bytes} (hm : methods.length = nm) (hw : env.writeOk = true)
    (h : conn.flatten = [nm] ++ (methods ++ ([5, cmd, rsv, atyp] ++ rest))) :
    ∃ c, c.flatten = rest ∧
      handleSOCKS5 env conn 5 =
        Trace.after [0x05, 0x00]
          (match readHost c atyp with
           | none => { conn := [] }
           | some none => { clientWrites := [socksReply 0x08], conn := c }
           | some (some (host, c')) =>
             match readFull c' 2 with
             | none => { conn := [] }
             | some (pbuf, c'') =>
               if cmd ≠ 0x01 then { clientWrites := [socksReply 0x07], conn := c'' }
               else
                 handleTunnel env c''
                   (if atyp = 0x04 then
                      str "[" ++ host ++ str "]:" ++ fmtD ((pbuf.getD 0 0) <<< 8 ||| (pbuf.getD 1 0))
                    else host ++ str ":" ++ fmtD ((pbuf.getD 0 0) <<< 8 ||| (pbuf.getD 1 0)))
                   ModeSOCKS5 none) := by
  obtain ⟨c1, h1, j1⟩ := readFull_of_flatten (n := 1) h rfl
  obtain ⟨c2, h2, j2⟩ := readFull_of_flatten j1 hm
  obtain ⟨c3, h3, j3⟩ := readFull_of_flatten (n := 4) j2 rfl
  refine ⟨c3, j3, ?_⟩
  simp [handleSOCKS5, socks5Request, h1, h2, h3, hw]

/-! ## Facts about `handleTunnel` -/

theorem handleTunnel_tunnel (env : Env) (conn : Conn) (target : Bytes) (mode : Nat)
    (firstFrame : Option Bytes) :
    (handleTunnel env conn target mode firstFrame).tunnel = some ⟨target, mode, firstFrame⟩ := by
  unfold handleTunnel
  (repeat' split) <;> rfl

theorem handleTunnel_wsWrites (env : Env) (conn : Conn) (target : Bytes) (mode : Nat)
    (firstFrame : Option Bytes) (hd : env.dialOk = true) :
    (handleTunnel env conn target mode firstFrame).wsWrites =
      [(TextMessage, connectMsg env.proxyIP target (earlyRead env conn mode firstFrame).1)] := by
  unfold handleTunnel
  simp only [hd, not_true_eq_false, if_false]
  (repeat' split) <;> rfl

/-! ## C1: dispatch on the first byte -/

/-- C1. For the first byte `b` delivered to `handleConnection`: the SOCKS5 handler is chosen
exactly when `b = 0x05` and is then run on the rest of the socket, the HTTP handler is chosen
exactly when `b` is one of C, G, P, H, D, O, T and is then run on the rest of the socket, and
for every other `b` nothing is written to the client, the dialer is not called and
`handleTunnel` is not called. -/
theorem handleConnection_dispatch (env : Env) (conn rest : Conn) (b : Nat)
    (h : connRead conn 1 = some ([b], rest)) :
    (route b = Route.socks5 ↔ b = 0x05) ∧
    (route b = Route.http ↔ b ∈ [67, 71, 80, 72, 68, 79, 84]) ∧
    (b = 0x05 → handleConnection env conn = handleSOCKS5 env rest b) ∧
    (b ∈ [67, 71, 80, 72, 68, 79, 84] → handleConnection env conn = handleHTTP env rest b) ∧
    (b ≠ 0x05 → b ∉ [67, 71, 80, 72, 68, 79, 84] →
      (handleConnection env conn).clientWrites = [] ∧ (handleConnection env conn).dials = 0 ∧
      (handleConnection env conn).wsWrites = [] ∧ (handleConnection env conn).tunnel = none) := by
  refine ⟨?_, ?_, ?_, ?_, ?_⟩
  · unfold route
    split_ifs with h1 h2 <;> simp [h1]
  · unfold route
    split_ifs with h1 h2
    · subst h1; decide
    · simp [h2]
    · simp [h2]
  · intro hb
    simp [handleConnection, h, route, hb]
  · intro hb
    have h5 : b ≠ 5 := by rintro rfl; revert hb; decide
    simp only [handleConnection, h, route, h5, hb, if_false, if_true]
  · intro h5 hb
    simp only [handleConnection, h, route, h5, hb, if_false]
    simp

theorem handleConnection_dispatch_witness :
    connRead [[22, 3, 1]] 1 = some ([22], [[3, 1]]) ∧
    (handleConnection envOK [[22, 3, 1]]).clientWrites = [] ∧
    (handleConnection envOK [[22, 3, 1]]).dials = 0 ∧
    (handleConnection envOK [[22, 3, 1]]).wsWrites = [] ∧
    (handleConnection envOK [[22, 3, 1]]).tunnel = none :=
  ⟨by decide,
   (handleConnection_dispatch envOK [[22, 3, 1]] [[3, 1]] 22 (by decide)).2.2.2.2
     (by decide) (by decide)⟩

/-! ## C2 to C4: the SOCKS5 request -/

theorem after_tunnel (w : Bytes) (t : Trace) : (Trace.after w t).tunnel = t.tunnel := rfl

/-- C2. For a complete SOCKS5 CONNECT request (version 5, command 1) with port bytes `hi`,
`lo`, the target handed to `handleTunnel` is: for address type 1 with bytes a, b, c, d the
dotted decimal `a.b.c.d`, then `:` and the decimal of `256 * hi + lo`; for address type 3 the
domain bytes as they are, then `:` and that port; for address type 4 an opening bracket, the
text form of the sixteen address bytes, then `]:` and that port.  The mode is SOCKS5 and no
first frame is passed. -/
theorem handleSOCKS5_target (env : Env) (conn : Conn) (nm rsv hi lo : Nat)
    (methods tail : Bytes) (hm : methods.length = nm) (hw : env.writeOk = true)
    (hlo : lo < 256) :
    (∀ a b c d : Nat,
      conn.flatten = nm :: methods ++ [5, 1, rsv, 1, a, b, c, d, hi, lo] ++ tail →
      (handleSOCKS5 env conn 5).tunnel =
        some ⟨dotted a b c d ++ str ":" ++ fmtD (256 * hi + lo), ModeSOCKS5, none⟩) ∧
    (∀ dom : Bytes,
      conn.flatten = nm :: methods ++ [5, 1, rsv, 3, dom.length] ++ dom ++ [hi, lo] ++ tail →
      (handleSOCKS5 env conn 5).tunnel =
        some ⟨dom ++ str ":" ++ fmtD (256 * hi + lo), ModeSOCKS5, none⟩) ∧
    (∀ addr : Bytes, addr.length = 16 →
      conn.flatten = nm :: methods ++ [5, 1, rsv, 4] ++ addr ++ [hi, lo] ++ tail →
      (handleSOCKS5 env conn 5).tunnel =
        some ⟨str "[" ++ ipString addr ++ str "]:" ++ fmtD (256 * hi + lo), ModeSOCKS5, none⟩) := by
  refine ⟨?_, ?_, ?_⟩
  · intro a b c d h
    have h' : conn.flatten =
        [nm] ++ (methods ++ ([5, 1, rsv, 1] ++ ([a, b, c, d] ++ ([hi, lo] ++ tail)))) := by
      rw [h]; simp
    obtain ⟨c1, j1, e⟩ := handleSOCKS5_header env hm hw h'
    obtain ⟨c2, e2, j2⟩ := readHost_v4 j1
    obtain ⟨c3, e3, _⟩ := readFull_of_flatten (n := 2) j2 rfl
    rw [e, e2]
    simp [e3, after_tunnel, handleTunnel_tunnel, port_eq hi lo hlo]
  · intro dom h
    have h' : conn.flatten =
        [nm] ++ (methods ++ ([5, 1, rsv, 3] ++ ([dom.length] ++ (dom ++ ([hi, lo] ++ tail))))) := by
      rw [h]; simp
    obtain ⟨c1, j1, e⟩ := handleSOCKS5_header env hm hw h'
    obtain ⟨c2, e2, j2⟩ := readHost_domain j1
    obtain ⟨c3, e3, _⟩ := readFull_of_flatten (n := 2) j2 rfl
    rw [e, e2]
    simp [e3, after_tunnel, handleTunnel_tunnel, port_eq hi lo hlo]
  · intro addr hl h
    have h' : conn.flatten =
        [nm] ++ (methods ++ ([5, 1, rsv, 4] ++ (addr ++ ([hi, lo] ++ tail)))) := by
      rw [h]; simp
    obtain ⟨c1, j1, e⟩ := handleSOCKS5_header env hm hw h'
    obtain ⟨c2, e2, j2⟩ := readHost_v6 hl j1
    obtain ⟨c3, e3, _⟩ := readFull_of_flatten (n := 2) j2 rfl
    rw [e, e2]
    simp [e3, after_tunnel, handleTunnel_tunnel, port_eq hi lo hlo]

theorem handleSOCKS5_target_witness :
    (handleSOCKS5 envOK [[1, 0, 5, 1, 0, 4], [0, 0, 0, 0, 0, 0, 0, 0, 0, 0, 0, 0, 0, 0, 0, 1],
        [1, 187, 22, 3]] 5).tunnel =
      some ⟨str "[::1]:443", ModeSOCKS5, none⟩ :=
  (handleSOCKS5_target envOK
      [[1, 0, 5, 1, 0, 4], [0, 0, 0, 0, 0, 0, 0, 0, 0, 0, 0, 0, 0, 0, 0, 1], [1, 187, 22, 3]]
      1 0 1 187 [0] [22, 3] (by decide) (by decide) (by decide)).2.2
    [0, 0, 0, 0, 0, 0, 0, 0, 0, 0, 0, 0, 0, 0, 0, 1] (by decide) (by decide)

/-- C3, as the code has it. For a SOCKS5 request with a version-5 header whose command byte is
not 1, whose address type is 1, 3 or 4, and whose address and port bytes all arrive, the
writes to the client are the method-selection reply followed by exactly
`05 07 00 01 00 00 00 00 00 00`; `handleTunnel` and the dialer are not called. -/
theorem handleSOCKS5_command_rejected (env : Env) (conn : Conn) (nm cmd rsv hi lo : Nat)
    (methods tail : Bytes) (hm : methods.length = nm) (hw : env.writeOk = true)
    (hc : cmd ≠ 0x01) :
    (∀ a b c d : Nat,
      conn.flatten = nm :: methods ++ [5, cmd, rsv, 1, a, b, c, d, hi, lo] ++ tail →
      (handleSOCKS5 env conn 5).clientWrites =
          [[0x05, 0x00], [0x05, 0x07, 0x00, 0x01, 0x00, 0x00, 0x00, 0x00, 0x00, 0x00]] ∧
        (handleSOCKS5 env conn 5).tunnel = none ∧ (handleSOCKS5 env conn 5).dials = 0) ∧
    (∀ dom : Bytes,
      conn.flatten = nm :: methods ++ [5, cmd, rsv, 3, dom.length] ++ dom ++ [hi, lo] ++ tail →
      (handleSOCKS5 env conn 5).clientWrites =
          [[0x05, 0x00], [0x05, 0x07, 0x00, 0x01, 0x00, 0x00, 0x00, 0x00, 0x00, 0x00]] ∧
        (handleSOCKS5 env conn 5).tunnel = none ∧ (handleSOCKS5 env conn 5).dials = 0) ∧
    (∀ addr : Bytes, addr.length = 16 →
      conn.flatten = nm :: methods ++ [5, cmd, rsv, 4] ++ addr ++ [hi, lo] ++ tail →
      (handleSOCKS5 env conn 5).clientWrites =
          [[0x05, 0x00], [0x05, 0x07, 0x00, 0x01, 0x00, 0x00, 0x00, 0x00, 0x00, 0x00]] ∧
        (handleSOCKS5 env conn 5).tunnel = none ∧ (handleSOCKS5 env conn 5).dials = 0) := by
  refine ⟨?_, ?_, ?_⟩
  · intro a b c d h
    have h' : conn.flatten =
        [nm] ++ (methods ++ ([5, cmd, rsv, 1] ++ ([a, b, c, d] ++ ([hi, lo] ++ tail)))) := by
      rw [h]; simp
    obtain ⟨c1, j1, e⟩ := handleSOCKS5_header env hm hw h'
    obtain ⟨c2, e2, j2⟩ := readHost_v4 j1
    obtain ⟨c3, e3, _⟩ := readFull_of_flatten (n := 2) j2 rfl
    rw [e, e2]
    simp [e3, hc, Trace.after, socksReply]
  · intro dom h
    have h' : conn.flatten =
        [nm] ++ (methods ++ ([5, cmd, rsv, 3] ++ ([dom.length] ++ (dom ++ ([hi, lo] ++ tail))))) := by
      rw [h]; simp
    obtain ⟨c1, j1, e⟩ := handleSOCKS5_header env hm hw h'
    obtain ⟨c2, e2, j2⟩ := readHost_domain j1
    obtain ⟨c3, e3, _⟩ := readFull_of_flatten (n := 2) j2 rfl
    rw [e, e2]
    simp [e3, hc, Trace.after, socksReply]
  · intro addr hl h
    have h' : conn.flatten =
        [nm] ++ (methods ++ ([5, cmd, rsv, 4] ++ (addr ++ ([hi, lo] ++ tail)))) := by
      rw [h]; simp
    obtain ⟨c1, j1, e⟩ := handleSOCKS5_header env hm hw h'
    obtain ⟨c2, e2, j2⟩ := readHost_v6 hl j1
    obtain ⟨c3, e3, _⟩ := readFull_of_flatten (n := 2) j2 rfl
    rw [e, e2]
    simp [e3, hc, Trace.after, socksReply]

theorem handleSOCKS5_command_rejected_witness :
    (handleSOCKS5 envOK [[2, 0, 2, 5, 3, 0, 3, 3], [97, 46, 98, 0, 53]] 5).clientWrites =
        [[0x05, 0x00], [0x05, 0x07, 0x00, 0x01, 0x00, 0x00, 0x00, 0x00, 0x00, 0x00]] ∧
      (handleSOCKS5 envOK [[2, 0, 2, 5, 3, 0, 3, 3], [97, 46, 98, 0, 53]] 5).tunnel = none ∧
      (handleSOCKS5 envOK [[2, 0, 2, 5, 3, 0, 3, 3], [97, 46, 98, 0, 53]] 5).dials = 0 :=
  (handleSOCKS5_command_rejected envOK [[2, 0, 2, 5, 3, 0, 3, 3], [97, 46, 98, 0, 53]]
      2 3 0 0 53 [0, 2] [] (by decide) (by decide) (by decide)).2.1 [97, 46, 98] (by decide)

/-- C3 as stated fails: a version-5 request with command 2 and address type 2, all of whose
bytes arrive, is answered `05 08 ...` and not `05 07 ...`. -/
theorem handleSOCKS5_command_counterexample :
    (handleSOCKS5 envOK [[1, 0, 5, 2, 0, 2, 10, 0, 0, 1, 0, 80]] 5).clientWrites =
        [[0x05, 0x00], [0x05, 0x08, 0x00, 0x01, 0x00, 0x00, 0x00, 0x00, 0x00, 0x00]] ∧
      (handleSOCKS5 envOK [[1, 0, 5, 2, 0, 2, 10, 0, 0, 1, 0, 80]] 5).clientWrites ≠
        [[0x05, 0x00], [0x05, 0x07, 0x00, 0x01, 0x00, 0x00, 0x00, 0x00, 0x00, 0x00]] := by
  decide

/-- C4. For a SOCKS5 request with a version-5 header whose address type is none of 1, 3, 4,
whatever the command byte, the writes to the client are the method-selection reply followed
by exactly `05 08 00 01 00 00 00 00 00 00`; the bytes after the header stay on the socket;
`handleTunnel` and the dialer are not called. -/
theorem handleSOCKS5_atyp_rejected (env : Env) (conn : Conn) (nm cmd rsv atyp : Nat)
    (methods tail : Bytes) (hm : methods.length = nm) (hw : env.writeOk = true)
    (h1 : atyp ≠ 0x01) (h3 : atyp ≠ 0x03) (h4 : atyp ≠ 0x04)
    (h : conn.flatten = nm :: methods ++ [5, cmd, rsv, atyp] ++ tail) :
    (handleSOCKS5 env conn 5).clientWrites =
        [[0x05, 0x00], [0x05, 0x08, 0x00, 0x01, 0x00, 0x00, 0x00, 0x00, 0x00, 0x00]] ∧
      (handleSOCKS5 env conn 5).conn.flatten = tail ∧
      (handleSOCKS5 env conn 5).tunnel = none ∧ (handleSOCKS5 env conn 5).dials = 0 ∧
      (handleSOCKS5 env conn 5).wsWrites = [] := by
  have h' : conn.flatten = [nm] ++ (methods ++ ([5, cmd, rsv, atyp] ++ tail)) := by
    rw [h]; simp
  obtain ⟨c1, j1, e⟩ := handleSOCKS5_header env hm hw h'
  rw [e, readHost_other c1 h1 h3 h4]
  simp [Trace.after, socksReply, j1]

theorem handleSOCKS5_atyp_rejected_witness :
    (handleSOCKS5 envOK [[1, 0], [5, 1, 0, 2, 9, 9, 0, 80]] 5).clientWrites =
        [[0x05, 0x00], [0x05, 0x08, 0x00, 0x01, 0x00, 0x00, 0x00, 0x00, 0x00, 0x00]] ∧
      (handleSOCKS5 envOK [[1, 0], [5, 1, 0, 2, 9, 9, 0, 80]] 5).conn.flatten = [9, 9, 0, 80] ∧
      (handleSOCKS5 envOK [[1, 0], [5, 1, 0, 2, 9, 9, 0, 80]] 5).tunnel = none ∧
      (handleSOCKS5 envOK [[1, 0], [5, 1, 0, 2, 9, 9, 0, 80]] 5).dials = 0 ∧
      (handleSOCKS5 envOK [[1, 0], [5, 1, 0, 2, 9, 9, 0, 80]] 5).wsWrites = [] :=
  handleSOCKS5_atyp_rejected envOK [[1, 0], [5, 1, 0, 2, 9, 9, 0, 80]] 1 1 0 2 [0]
    [9, 9, 0, 80] (by decide) (by decide) (by decide) (by decide) (by decide) (by decide)

/-! ## C5: the connect control frame -/

/-- C5. When the dial succeeds `handleTunnel` sends exactly one frame before reading the
reply, a text frame. With `p` the first-frame payload (the frame handed in, or what the
early-data read put in its place; nothing counts as empty), the frame is
`CONNECT:` ++ target ++ `|` ++ p when no fallback IP is configured and
`CONNECT:` ++ target ++ `|` ++ p ++ `|` ++ ip when the fallback IP `ip` is not empty.
A frame handed in is never replaced. -/
theorem handleTunnel_connect_frame (env : Env) (conn : Conn) (t : Bytes) (mode : Nat)
    (ff : Option Bytes) (hd : env.dialOk = true) :
    (env.proxyIP = [] →
      (handleTunnel env conn t mode ff).wsWrites =
        [(TextMessage, str "CONNECT:" ++ t ++ str "|" ++ (earlyRead env conn mode ff).1.getD [])]) ∧
    (env.proxyIP ≠ [] →
      (handleTunnel env conn t mode ff).wsWrites =
        [(TextMessage, str "CONNECT:" ++ t ++ str "|" ++ (earlyRead env conn mode ff).1.getD []
            ++ str "|" ++ env.proxyIP)]) ∧
    (∀ p : Bytes, ff = some p → (earlyRead env conn mode ff).1 = some p) ∧
    (mode ≠ ModeSOCKS5 → (earlyRead env conn mode ff).1 = ff) := by
  refine ⟨?_, ?_, ?_, ?_⟩
  · intro hip
    rw [handleTunnel_wsWrites env conn t mode ff hd]
    simp [connectMsg, hip]
  · intro hip
    rw [handleTunnel_wsWrites env conn t mode ff hd]
    simp [connectMsg, hip]
  · intro p hp
    simp [earlyRead, hp]
  · intro hm
    simp [earlyRead, hm]

theorem handleTunnel_connect_frame_witness :
    (handleTunnel { envOK with proxyIP := str "10.0.0.9" } [] (str "example.com:80")
        ModeHTTPProxy (some (str "GET / HTTP/1.1\r\n\r\n"))).wsWrites =
      [(TextMessage, str "CONNECT:example.com:80|GET / HTTP/1.1\r\n\r\n|10.0.0.9")] :=
  (handleTunnel_connect_frame { envOK with proxyIP := str "10.0.0.9" } [] (str "example.com:80")
      ModeHTTPProxy (some (str "GET / HTTP/1.1\r\n\r\n")) (by decide)).2.1 (by decide)

/-! ## HTTP: symbolic execution on a parsed request -/

/-- The CONNECT branch of `handleHTTP`. -/
theorem handleHTTP_connect (env : Env) {conn : Conn} {fb : Nat} {requestLine u v : Bytes}
    {more : List Bytes} {r r' : Reader} {hs : Headers} {ls : List Bytes}
    (h1 : readString 10 ⟨[], runeString fb :: conn⟩ = some (requestLine, r))
    (h2 : fields requestLine = str "CONNECT" :: u :: v :: more)
    (h3 : readHeaders env r = some (hs, ls, r')) :
    handleHTTP env conn fb = handleTunnel env r'.src u ModeHTTPConnect none := by
  simp [handleHTTP, h1, h2, h3]

/-- The forward branch of `handleHTTP`. -/
theorem handleHTTP_forward (env : Env) {conn : Conn} {fb : Nat} {requestLine m p v : Bytes}
    {more : List Bytes} {r r' : Reader} {hs : Headers} {ls : List Bytes}
    (h1 : readString 10 ⟨[], runeString fb :: conn⟩ = some (requestLine, r))
    (h2 : fields requestLine = m :: p :: v :: more)
    (hm : m ∈ forwardMethods)
    (h3 : readHeaders env r = some (hs, ls, r')) :
    handleHTTP env conn fb =
      if (splitURL p (hs.get (str "host"))).1 = [] then
        { clientWrites := [str "HTTP/1.1 400 Bad Request\r\n\r\n"], conn := r'.src }
      else
        handleTunnel env (readBody r' (hs.get (str "content-length"))).2.src
          (withPort (splitURL p (hs.get (str "host"))).1) ModeHTTPProxy
          (some (m ++ str " " ++ (splitURL p (hs.get (str "host"))).2 ++ str " " ++ v
            ++ str "\r\n" ++ writeHeaders env ls ++ str "\r\n"
            ++ (readBody r' (hs.get (str "content-length"))).1)) := by
  have hc : m ≠ str "CONNECT" := by
    rintro rfl
    revert hm
    decide
  simp only [handleHTTP, h1, h2, h3, hc, hm, if_false, if_true]

theorem toLower_proxy_connection (env : Env) :
    toLower env (str "Proxy-Connection") = str "proxy-connection" := by
  unfold toLower
  rw [if_pos (by decide)]
  decide

theorem toLower_proxy_authorization (env : Env) :
    toLower env (str "Proxy-Authorization") = str "proxy-authorization" := by
  unfold toLower
  rw [if_pos (by decide)]
  decide

theorem isProxyHeader_iff (env : Env) (l : Bytes) :
    isProxyHeader env l = true ↔
      ¬ (toLower env (headerName l) ≠ str "proxy-connection" ∧
          toLower env (headerName l) ≠ str "proxy-authorization") := by
  simp only [isProxyHeader, equalFold, toLower_proxy_connection, toLower_proxy_authorization,
    Bool.or_eq_true, decide_eq_true_eq]
  tauto

theorem writeHeaders_foldl (env : Env) (ls : List Bytes) (acc : Bytes) :
    ls.foldl
        (fun builder line =>
          if toLower env (headerName line) ≠ str "proxy-connection" ∧
              toLower env (headerName line) ≠ str "proxy-authorization" then
            builder ++ line ++ str "\r\n"
          else builder)
        acc =
      acc ++ (ls.filter (fun l => !isProxyHeader env l)).flatMap (fun l => l ++ str "\r\n") := by
  induction ls generalizing acc with
  | nil => simp
  | cons l ls ih =>
    rw [List.foldl_cons, ih]
    by_cases h : toLower env (headerName l) ≠ str "proxy-connection" ∧
        toLower env (headerName l) ≠ str "proxy-authorization"
    · have hk : isProxyHeader env l = false := by
        rw [← Bool.not_eq_true, isProxyHeader_iff]
        exact fun hc => hc h
      rw [if_pos h, List.filter_cons, hk]
      simp
    · have hk : isProxyHeader env l = true := (isProxyHeader_iff env l).mpr h
      rw [if_neg h, List.filter_cons, hk]
      simp

/-- The rebuilt header block: the lines that are kept, each followed by CRLF. -/
theorem writeHeaders_eq (env : Env) (ls : List Bytes) :
    writeHeaders env ls =
      (ls.filter (fun l => !isProxyHeader env l)).flatMap (fun l => l ++ str "\r\n") := by
  have h := writeHeaders_foldl env ls []
  rw [List.nil_append] at h
  exact h

theorem readFullR_zero (r : Reader) : readFullR r 0 = some ([], r) := by
  simp [readFullR, readFullRAux]

/-- The body read when the Content-Length value denotes `n` below 10 MiB and `n` bytes can
be read. -/
theorem readBody_eq {r r'' : Reader} {cl body : Bytes} {n : Nat}
    (hcl : atoi cl = some (n : Int)) (hn : n < 10485760)
    (hb : readFullR r n = some (body, r'')) : readBody r cl = (body, r'') := by
  have hne : cl ≠ [] := by
    rintro rfl
    have hnil : atoi [] = none := by decide
    rw [hnil] at hcl
    cases hcl
  unfold readBody
  rw [if_pos hne, hcl]
  by_cases h0 : n = 0
  · subst h0
    rw [readFullR_zero] at hb
    simp only [Option.some.injEq, Prod.mk.injEq] at hb
    simp [hb.1, hb.2]
  · have hpos : (0 : Int) < (n : Int) ∧ (n : Int) < 10 * 1024 * 1024 := by
      constructor
      · exact_mod_cast Nat.pos_of_ne_zero h0
      · have : (n : Int) < 10485760 := by exact_mod_cast hn
        simpa using this
    simp only [hpos, and_self, if_true, Int.toNat_ofNat, hb]

/-! ## Target derivation -/

theorem indexByte_of_not_mem (c : Nat) (l : Bytes) (h : c ∉ l) : indexByte c l = none := by
  induction l with
  | nil => rfl
  | cons b bs ih =>
    have hb : b ≠ c := fun e => h (by simp [e])
    have hbs : c ∉ bs := fun e => h (by simp [e])
    simp [indexByte, hb, ih hbs]

theorem indexByte_append_cons (c : Nat) (a r : Bytes) (h : c ∉ a) :
    indexByte c (a ++ c :: r) = some a.length := by
  induction a with
  | nil => simp [indexByte]
  | cons b bs ih =>
    have hb : b ≠ c := fun e => h (by simp [e])
    have hbs : c ∉ bs := fun e => h (by simp [e])
    simp [indexByte, hb, ih hbs]

/-- A request-URI without the `http://` prefix: the target is the Host value, the path is the
request-URI. -/
theorem splitURL_origin (p host : Bytes) (h : (str "http://").isPrefixOf p = false) :
    splitURL p host = (host, p) := by
  simp [splitURL, h]

theorem splitURL_http (x host : Bytes) :
    splitURL (str "http://" ++ x) host =
      match indexByte 47 x with
      | some idx => if 0 < idx then (x.take idx, x.drop idx) else (x, str "/")
      | none => (x, str "/") := by
  have hp : (str "http://").isPrefixOf (str "http://" ++ x) = true := by
    rw [List.isPrefixOf_iff_prefix]
    exact List.prefix_append _ _
  have hd : (str "http://" ++ x).drop 7 = x := List.drop_left' (by decide)
  simp only [splitURL, hp, if_true, hd]

/-- A request-URI `http://` ++ a ++ r with a non-empty authority `a` free of `/` and `r` empty
or starting with `/`: the target is `a`, the path is `r`, or `/` when `r` is empty. -/
theorem splitURL_absolute (a r host : Bytes) (ha : a ≠ []) (hs : 47 ∉ a)
    (hr : r = [] ∨ ∃ r', r = 47 :: r') :
    splitURL (str "http://" ++ (a ++ r)) host = (a, if r = [] then str "/" else r) := by
  rw [splitURL_http]
  rcases hr with rfl | ⟨r', rfl⟩
  · simp [indexByte_of_not_mem 47 a hs]
  · have hl : 0 < a.length := List.length_pos.mpr ha
    simp [indexByte_append_cons 47 a r' hs, hl]

theorem withPort_of_not_mem (t : Bytes) (h : 58 ∉ t) : withPort t = t ++ str ":80" := by
  simp [withPort, h]

theorem withPort_of_mem (t : Bytes) (h : 58 ∈ t) : withPort t = t := by
  simp [withPort, h]

/-! ## C6: HTTP CONNECT -/

/-- C6. For an HTTP request whose request line has method CONNECT and request-URI `u` and
whose header block is complete, `handleHTTP` calls `handleTunnel` with target `u`, mode
HTTP_CONNECT and no first frame; the early-data read leaves the first frame empty in this
mode; so when the dial succeeds and no fallback IP is configured the only frame sent is the
text frame `CONNECT:` ++ u ++ `|`, whatever the client sent after the headers. -/
theorem handleHTTP_connect_frame (env : Env) (conn : Conn) (fb : Nat)
    (requestLine u v : Bytes) (more : List Bytes) (r r' : Reader) (hs : Headers)
    (ls : List Bytes)
    (h1 : readString 10 ⟨[], runeString fb :: conn⟩ = some (requestLine, r))
    (h2 : fields requestLine = str "CONNECT" :: u :: v :: more)
    (h3 : readHeaders env r = some (hs, ls, r')) :
    (handleHTTP env conn fb).tunnel = some ⟨u, ModeHTTPConnect, none⟩ ∧
    earlyRead env r'.src ModeHTTPConnect none = (none, r'.src) ∧
    (env.dialOk = true → env.proxyIP = [] →
      (handleHTTP env conn fb).wsWrites = [(TextMessage, str "CONNECT:" ++ u ++ str "|")]) := by
  have he : earlyRead env r'.src ModeHTTPConnect none = (none, r'.src) := by
    have hm : ModeHTTPConnect ≠ ModeSOCKS5 := by decide
    simp [earlyRead, hm]
  refine ⟨?_, he, ?_⟩
  · rw [handleHTTP_connect env h1 h2 h3, handleTunnel_tunnel]
  · intro hd hip
    rw [handleHTTP_connect env h1 h2 h3, handleTunnel_wsWrites _ _ _ _ _ hd, he]
    simp [connectMsg, hip]

theorem handleHTTP_connect_frame_witness :
    (handleHTTP { envOK with earlyData := true }
        [str "ONNECT example.com:443 HTTP/1.1\r\nHost: example.com:443\r\n\r\nab", [1, 2, 3]]
        67).wsWrites =
      [(TextMessage, str "CONNECT:example.com:443|")] :=
  (handleHTTP_connect_frame { envOK with earlyData := true }
      [str "ONNECT example.com:443 HTTP/1.1\r\nHost: example.com:443\r\n\r\nab", [1, 2, 3]]
      67 (str "CONNECT example.com:443 HTTP/1.1\r\n") (str "example.com:443") (str "HTTP/1.1") []
      ⟨str "Host: example.com:443\r\n\r\nab", [[1, 2, 3]]⟩ ⟨str "ab", [[1, 2, 3]]⟩
      [(str "host", str "example.com:443")] [str "Host: example.com:443"]
      (by decide) (by decide) (by decide)).2.2 (by decide) (by decide)

/-! ## C7: the rebuilt request of the forward path -/

/-- C7, as the code has it. For a forward-method request with request-URI `p` in origin form
(no `http://` prefix), version `v`, a non-empty Host value `h` without a colon and a
Content-Length value denoting `n` below 10485760 with the `n` body bytes readable, the first
frame handed to `handleTunnel` is method, space, `p`, space, `v`, CRLF, each kept header line
followed by CRLF, CRLF and the `n` body bytes; the target is `h` ++ `:80`. -/
theorem handleHTTP_forward_frame (env : Env) (conn : Conn) (fb : Nat)
    (requestLine m p v : Bytes) (more : List Bytes) (r r' r'' : Reader) (hs : Headers)
    (ls : List Bytes) (h body : Bytes) (n : Nat)
    (h1 : readString 10 ⟨[], runeString fb :: conn⟩ = some (requestLine, r))
    (h2 : fields requestLine = m :: p :: v :: more)
    (hm : m ∈ forwardMethods)
    (hp : (str "http://").isPrefixOf p = false)
    (h3 : readHeaders env r = some (hs, ls, r'))
    (hh : hs.get (str "host") = h) (hne : h ≠ []) (hc : 58 ∉ h)
    (hcl : atoi (hs.get (str "content-length")) = some (n : Int)) (hn : n < 10485760)
    (hb : readFullR r' n = some (body, r'')) :
    (handleHTTP env conn fb).tunnel =
      some ⟨h ++ str ":80", ModeHTTPProxy,
        some (m ++ str " " ++ p ++ str " " ++ v ++ str "\r\n"
          ++ (ls.filter (fun l => !isProxyHeader env l)).flatMap (fun l => l ++ str "\r\n")
          ++ str "\r\n" ++ body)⟩ := by
  rw [handleHTTP_forward env h1 h2 hm h3, hh, splitURL_origin p h hp]
  simp only [hne, if_false]
  rw [handleTunnel_tunnel, withPort_of_not_mem h hc, readBody_eq hcl hn hb, writeHeaders_eq]

theorem handleHTTP_forward_frame_witness :
    (handleHTTP envOK
        [str "ET /x HTTP/1.1\r\nHost: example.com\r\nProxy-Connection: keep-alive\r\n",
         str "Content-Length: 5\r\n\r\nhel", str "lo"] 71).tunnel =
      some ⟨str "example.com:80", ModeHTTPProxy,
        some (str "GET /x HTTP/1.1\r\nHost: example.com\r\nContent-Length: 5\r\n\r\nhello")⟩ :=
  handleHTTP_forward_frame envOK
    [str "ET /x HTTP/1.1\r\nHost: example.com\r\nProxy-Connection: keep-alive\r\n",
     str "Content-Length: 5\r\n\r\nhel", str "lo"] 71
    (str "GET /x HTTP/1.1\r\n") (str "GET") (str "/x") (str "HTTP/1.1") []
    ⟨str "Host: example.com\r\nProxy-Connection: keep-alive\r\n",
      [str "Content-Length: 5\r\n\r\nhel", str "lo"]⟩
    ⟨str "hel", [str "lo"]⟩ ⟨[], []⟩
    [(str "content-length", str "5"), (str "proxy-connection", str "keep-alive"),
      (str "host", str "example.com")]
    [str "Host: example.com", str "Proxy-Connection: keep-alive", str "Content-Length: 5"]
    (str "example.com") (str "hello") 5
    (by decide) (by decide) (by decide) (by decide) (by decide) (by decide) (by decide)
    (by decide) (by decide) (by decide) (by decide)

/-- C7 as stated fails: with `Content-Length: 10485760` and all 10485760 body bytes sent, the
first frame ends with the blank line and carries no body byte. -/
theorem handleHTTP_forward_frame_counterexample :
    (List.replicate 10485760 0).length = 10485760 ∧
    (handleHTTP envOK
        [str "ET /x HTTP/1.1\r\nHost: example.com\r\nContent-Length: 10485760\r\n\r\n",
         List.replicate 10485760 0] 71).tunnel =
      some ⟨str "example.com:80", ModeHTTPProxy,
        some (str "GET /x HTTP/1.1\r\nHost: example.com\r\nContent-Length: 10485760\r\n\r\n")⟩ ∧
    (handleHTTP envOK
        [str "ET /x HTTP/1.1\r\nHost: example.com\r\nContent-Length: 10485760\r\n\r\n",
         List.replicate 10485760 0] 71).tunnel ≠
      some ⟨str "example.com:80", ModeHTTPProxy,
        some (str "GET /x HTTP/1.1\r\nHost: example.com\r\nContent-Length: 10485760\r\n\r\n"
          ++ List.replicate 10485760 0)⟩ :=
  ⟨List.length_replicate _ _, by decide, by decide⟩

/-! ## C8: the header lines of the rebuilt request -/

/-- The header part of the rebuilt request consists of the recorded lines in their order, each
unchanged and followed by CRLF, without exactly the lines that the test of the code
(`isProxyHeader`) selects; and this block stands between the request line and the blank line
of the first frame handed to `handleTunnel`. -/
theorem handleHTTP_header_lines (env : Env) (ls : List Bytes) :
    writeHeaders env ls =
        ((ls.filter (fun l => !isProxyHeader env l)).map (fun l => l ++ str "\r\n")).flatten ∧
    (∀ (conn : Conn) (fb : Nat) (requestLine m p v : Bytes) (more : List Bytes)
        (r r' : Reader) (hs : Headers),
      readString 10 ⟨[], runeString fb :: conn⟩ = some (requestLine, r) →
      fields requestLine = m :: p :: v :: more →
      m ∈ forwardMethods →
      readHeaders env r = some (hs, ls, r') →
      (splitURL p (hs.get (str "host"))).1 ≠ [] →
      ((handleHTTP env conn fb).tunnel.map (fun c => c.firstFrame)) =
        some (some (m ++ str " " ++ (splitURL p (hs.get (str "host"))).2 ++ str " " ++ v
          ++ str "\r\n"
          ++ ((ls.filter (fun l => !isProxyHeader env l)).map (fun l => l ++ str "\r\n")).flatten
          ++ str "\r\n" ++ (readBody r' (hs.get (str "content-length"))).1))) := by
  have hw : writeHeaders env ls =
      ((ls.filter (fun l => !isProxyHeader env l)).map (fun l => l ++ str "\r\n")).flatten := by
    rw [writeHeaders_eq, List.flatMap_def]
  refine ⟨hw, ?_⟩
  intro conn fb requestLine m p v more r r' hs h1 h2 hm h3 ht
  rw [handleHTTP_forward env h1 h2 hm h3, if_neg ht, handleTunnel_tunnel, hw]
  rfl

theorem handleHTTP_header_lines_witness :
    ((handleHTTP envOK
        [str "OST http://example.com/a HTTP/1.1\r\nproxy-AUTHORIZATION : Basic eA==\r\n",
         str "X-A: 1\r\nProxy-Connection: close\r\nAccept: */*\r\n\r\n"] 80).tunnel.map
        (fun c => c.firstFrame)) =
      some (some (str "POST /a HTTP/1.1\r\nX-A: 1\r\nAccept: */*\r\n\r\n")) :=
  (handleHTTP_header_lines envOK
      [str "proxy-AUTHORIZATION : Basic eA==", str "X-A: 1", str "Proxy-Connection: close",
        str "Accept: */*"]).2
    [str "OST http://example.com/a HTTP/1.1\r\nproxy-AUTHORIZATION : Basic eA==\r\n",
     str "X-A: 1\r\nProxy-Connection: close\r\nAccept: */*\r\n\r\n"] 80
    (str "POST http://example.com/a HTTP/1.1\r\n") (str "POST") (str "http://example.com/a")
    (str "HTTP/1.1") []
    ⟨str "proxy-AUTHORIZATION : Basic eA==\r\n",
      [str "X-A: 1\r\nProxy-Connection: close\r\nAccept: */*\r\n\r\n"]⟩
    ⟨[], []⟩
    [(str "accept", str "*/*"), (str "proxy-connection", str "close"), (str "x-a", str "1"),
      (str "proxy-authorization", str "Basic eA==")]
    (by decide) (by decide) (by decide) (by decide) (by decide)

/-- On a name made of ASCII bytes the test of the code is the case-insensitive comparison
of the name with `Proxy-Connection` and `Proxy-Authorization`. -/
theorem isProxyHeader_ascii (env : Env) (line : Bytes)
    (h : (headerName line).all (· < 0x80) = true) :
    isProxyHeader env line =
      (namedIgnoringCase line (str "Proxy-Connection") ||
        namedIgnoringCase line (str "Proxy-Authorization")) := by
  have hl : toLower env (headerName line) = asciiLower (headerName line) := by
    simp only [toLower, h, if_true, asciiLower]
  have h1 : toLower env (str "Proxy-Connection") = asciiLower (str "Proxy-Connection") := by
    rw [toLower_proxy_connection]; decide
  have h2 : toLower env (str "Proxy-Authorization") = asciiLower (str "Proxy-Authorization") := by
    rw [toLower_proxy_authorization]; decide
  simp only [isProxyHeader, equalFold, namedIgnoringCase, hl, h1, h2]

/-- C8 at the failing input. The header line `Proxy-Connect` ++ U+0130 ++ `on: keep-alive` is
named neither `Proxy-Connection` nor `Proxy-Authorization` under case-insensitive comparison,
yet `strings.ToLower` lowers its name to `proxy-connection` and the line is left out of the
rebuilt request. -/
theorem writeHeaders_drops_other_line :
    namedIgnoringCase (str "Proxy-Connect" ++ [0xC4, 0xB0] ++ str "on: keep-alive")
        (str "Proxy-Connection") = false ∧
    namedIgnoringCase (str "Proxy-Connect" ++ [0xC4, 0xB0] ++ str "on: keep-alive")
        (str "Proxy-Authorization") = false ∧
    writeHeaders envOK
        [str "Host: example.com", str "Proxy-Connect" ++ [0xC4, 0xB0] ++ str "on: keep-alive",
         str "Accept: */*"] =
      str "Host: example.com\r\nAccept: */*\r\n" ∧
    (handleHTTP envOK
        [str "ET /x HTTP/1.1\r\nHost: example.com\r\nProxy-Connect" ++ [0xC4, 0xB0]
          ++ str "on: keep-alive\r\nAccept: */*\r\n\r\n"] 71).tunnel =
      some ⟨str "example.com:80", ModeHTTPProxy,
        some (str "GET /x HTTP/1.1\r\nHost: example.com\r\nAccept: */*\r\n\r\n")⟩ := by
  decide

/-! ## C9: target and path of a forward request -/

/-- C9 at the failing input. For the request-URI `http:///foo` (empty authority, rest
`/foo`) the code derives the target `/foo` and the path `/`, not the empty target and the
path `/foo`; the request is tunnelled to `/foo:80` with request line `GET / HTTP/1.1`. -/
theorem splitURL_empty_authority :
    splitURL (str "http://" ++ ([] ++ str "/foo")) (str "example.com") = (str "/foo", str "/") ∧
    (handleHTTP envOK [str "ET http:///foo HTTP/1.1\r\nHost: example.com\r\n\r\n"] 71).tunnel =
      some ⟨str "/foo:80", ModeHTTPProxy,
        some (str "GET / HTTP/1.1\r\nHost: example.com\r\n\r\n")⟩ ∧
    (handleHTTP envOK [str "ET http:///foo HTTP/1.1\r\nHost: example.com\r\n\r\n"]
        71).clientWrites = [] := by
  decide

/-! ## C10: port defaulting -/

/-- C10 at the failing input. The bracketed IPv6 literal `[::1]` carries no port, yet it is
handed to `handleTunnel` unchanged: no `:80` is appended. -/
theorem withPort_ipv6_literal :
    withPort (str "[::1]") = str "[::1]" ∧
    withPort (str "[::1]") ≠ str "[::1]" ++ str ":80" ∧
    (handleHTTP envOK [str "ET http://[::1]/ HTTP/1.1\r\n\r\n"] 71).tunnel =
      some ⟨str "[::1]", ModeHTTPProxy, some (str "GET / HTTP/1.1\r\n\r\n")⟩ := by
  decide

/-! ## The read loops do not depend on their bound -/

theorem units_cons (ch : Bytes) (rest : Conn) :
    (units (ch :: rest)).length = ch.length + 1 + (units rest).length := by
  simp [units]
  omega

theorem connRead_units {src src' : Conn} {max : Nat} {bs : Bytes}
    (h : connRead src max = some (bs, src')) (hmax : 0 < max) :
    (units src').length < (units src).length ∧
      bs.length + (units src').length ≤ (units src).length ∧ bs.length ≤ max := by
  cases src with
  | nil => simp [connRead] at h
  | cons ch rest =>
    cases hd : ch.drop max with
    | nil =>
      have hl : ch.length ≤ max := List.drop_eq_nil_iff.mp hd
      simp only [connRead, hd, Option.some.injEq, Prod.mk.injEq] at h
      obtain ⟨rfl, rfl⟩ := h
      rw [units_cons]
      omega
    | cons d ds =>
      simp only [connRead, hd, Option.some.injEq, Prod.mk.injEq] at h
      obtain ⟨rfl, rfl⟩ := h
      have hlen : (d :: ds).length = ch.length - max := by rw [← hd, List.length_drop]
      have hpos : 0 < (d :: ds).length := by simp
      rw [units_cons, units_cons, List.length_take, hlen]
      rw [hlen] at hpos
      omega

theorem fill_units {tries : Nat} {buf buf' : Bytes} {src src' : Conn}
    (h : fill tries buf src = some (buf', src')) (hb : buf.length < 4096) :
    (units src').length < (units src).length ∧
      buf'.length + (units src').length ≤ buf.length + (units src).length ∧
      buf'.length ≤ 4096 ∧ buf.length < buf'.length := by
  induction tries generalizing src with
  | zero => simp [fill] at h
  | succ t ih =>
    unfold fill at h
    cases hr : connRead src (4096 - buf.length) with
    | none => simp [hr] at h
    | some p =>
      obtain ⟨bs, s1⟩ := p
      have hu := connRead_units hr (by omega)
      cases bs with
      | nil =>
        simp only [hr] at h
        have := ih h
        simp only [List.length_nil, Nat.zero_add] at hu
        omega
      | cons b bs =>
        simp only [hr, Option.some.injEq, Prod.mk.injEq] at h
        obtain ⟨rfl, rfl⟩ := h
        simp only [List.length_append, List.length_cons] at hu ⊢
        omega

theorem units_eq_nil {src : Conn} (h : (units src).length = 0) : src = [] := by
  cases src with
  | nil => rfl
  | cons ch rest => rw [units_cons] at h; omega

theorem fill_nil (tries : Nat) (buf : Bytes) : fill tries buf [] = none := by
  cases tries <;> simp [fill, connRead]

theorem readStringAux_nil_src (d : Nat) (fuel : List Unit) (acc : Bytes) (r : Reader)
    (h : r.src = []) :
    readStringAux d fuel acc r =
      match splitAfter d r.buf with
      | some (l, rest) => some (acc ++ l, ⟨rest, r.src⟩)
      | none => none := by
  cases fuel with
  | nil => simp [readStringAux]
  | cons _ fuel =>
    unfold readStringAux
    cases splitAfter d r.buf with
    | some p => rfl
    | none => simp [h, fill_nil]

/-- The result of the `ReadString` loop is the same for every bound that covers the pending
reads: the bound never cuts the loop short. -/
theorem readStringAux_fuel (d : Nat) (f1 f2 : List Unit) (acc : Bytes) (r : Reader)
    (h1 : (units r.src).length ≤ f1.length) (h2 : (units r.src).length ≤ f2.length) :
    readStringAux d f1 acc r = readStringAux d f2 acc r := by
  induction f1 generalizing f2 acc r with
  | nil =>
    have hs : r.src = [] := units_eq_nil (by simpa using h1)
    rw [readStringAux_nil_src d [] acc r hs, readStringAux_nil_src d f2 acc r hs]
  | cons u f1 ih =>
    cases f2 with
    | nil =>
      have hs : r.src = [] := units_eq_nil (by simpa using h2)
      rw [readStringAux_nil_src d (u :: f1) acc r hs, readStringAux_nil_src d [] acc r hs]
    | cons u' f2 =>
      unfold readStringAux
      cases splitAfter d r.buf with
      | some p => rfl
      | none =>
        simp only
        cases hf : fill 100 (if decide (4096 ≤ r.buf.length) = true then [] else r.buf) r.src with
        | none => rfl
        | some p =>
          obtain ⟨buf, src⟩ := p
          have hb : (if decide (4096 ≤ r.buf.length) = true then [] else r.buf).length < 4096 := by
            split
            · simp
            · rename_i hn
              simpa using hn
          have hu := (fill_units hf hb).1
          simp only [List.length_cons] at h1 h2
          exact ih f2 _ ⟨buf, src⟩ (by simp only; omega) (by simp only; omega)

theorem splitAfter_some {d : Nat} {buf l rest : Bytes} (h : splitAfter d buf = some (l, rest)) :
    l ++ rest = buf ∧ 0 < l.length := by
  induction buf generalizing l with
  | nil => simp [splitAfter] at h
  | cons b bs ih =>
    unfold splitAfter at h
    split at h
    · simp only [Option.some.injEq, Prod.mk.injEq] at h
      obtain ⟨rfl, rfl⟩ := h
      simp
    · cases hs : splitAfter d bs with
      | none => simp [hs] at h
      | some p =>
        obtain ⟨l', r'⟩ := p
        simp only [hs, Option.some.injEq, Prod.mk.injEq] at h
        obtain ⟨rfl, rfl⟩ := h
        have := ih hs
        simp [this.1]

/-- What one `ReadString` takes: the line is not empty, and the line together with what stays
pending is no more than what was pending. -/
theorem readStringAux_consumes {d : Nat} {fuel : List Unit} {acc l : Bytes} {r r' : Reader}
    (h : readStringAux d fuel acc r = some (l, r')) (hb : r.buf.length ≤ 4096) :
    acc.length < l.length ∧
      l.length + r'.buf.length + (units r'.src).length ≤
        acc.length + r.buf.length + (units r.src).length ∧
      r'.buf.length ≤ 4096 := by
  induction fuel generalizing acc r with
  | nil =>
    unfold readStringAux at h
    cases hs : splitAfter d r.buf with
    | none => simp [hs] at h
    | some p =>
      obtain ⟨l', rest⟩ := p
      simp only [hs, Option.some.injEq, Prod.mk.injEq] at h
      obtain ⟨rfl, rfl⟩ := h
      have hsp := splitAfter_some hs
      have hl : l'.length + rest.length = r.buf.length := by
        rw [← hsp.1, List.length_append]
      simp only [List.length_append]
      omega
  | cons u fuel ih =>
    unfold readStringAux at h
    cases hs : splitAfter d r.buf with
    | some p =>
      obtain ⟨l', rest⟩ := p
      simp only [hs, Option.some.injEq, Prod.mk.injEq] at h
      obtain ⟨rfl, rfl⟩ := h
      have hsp := splitAfter_some hs
      have hl : l'.length + rest.length = r.buf.length := by
        rw [← hsp.1, List.length_append]
      simp only [List.length_append]
      omega
    | none =>
      simp only [hs] at h
      by_cases hfull : 4096 ≤ r.buf.length
      · simp only [hfull, decide_True, if_true] at h
        cases hf : fill 100 [] r.src with
        | none => simp [hf] at h
        | some p =>
          obtain ⟨buf, src⟩ := p
          simp only [hf] at h
          have hu := fill_units hf (by simp)
          have := ih h hu.2.2.1
          simp only [List.length_append, List.length_nil] at this hu
          omega
      · simp only [hfull, decide_False, Bool.false_eq_true, if_false] at h
        cases hf : fill 100 r.buf r.src with
        | none => simp [hf] at h
        | some p =>
          obtain ⟨buf, src⟩ := p
          simp only [hf] at h
          have hu := fill_units hf (by omega)
          have := ih h hu.2.2.1
          simp only at this hu
          omega

theorem readString_consumes {d : Nat} {l : Bytes} {r r' : Reader}
    (h : readString d r = some (l, r')) (hb : r.buf.length ≤ 4096) :
    0 < l.length ∧
      l.length + r'.buf.length + (units r'.src).length ≤ r.buf.length + (units r.src).length ∧
      r'.buf.length ≤ 4096 := by
  have := readStringAux_consumes h hb
  simpa using this

/-- The result of the header loop is the same for every bound above the pending input. -/
theorem readHeadersAux_fuel (env : Env) (f1 f2 : List Unit) (r : Reader) (hs : Headers)
    (ls : List Bytes) (hb : r.buf.length ≤ 4096)
    (h1 : r.buf.length + (units r.src).length < f1.length)
    (h2 : r.buf.length + (units r.src).length < f2.length) :
    readHeadersAux env f1 r hs ls = readHeadersAux env f2 r hs ls := by
  induction f1 generalizing f2 r hs ls with
  | nil => simp at h1
  | cons u f1 ih =>
    cases f2 with
    | nil => simp at h2
    | cons u' f2 =>
      unfold readHeadersAux
      cases hr : readString 10 r with
      | none => rfl
      | some p =>
        obtain ⟨line, r'⟩ := p
        simp only
        split
        · rfl
        · have hc := readString_consumes hr hb
          simp only [List.length_cons] at h1 h2
          exact ih f2 r' _ _ hc.2.2 (by omega) (by omega)

theorem connRead_length {src src' : Conn} {max : Nat} {bs : Bytes}
    (h : connRead src max = some (bs, src')) (hmax : 0 < max) :
    src'.length ≤ src.length ∧ (bs.length = 0 → src'.length < src.length) := by
  cases src with
  | nil => simp [connRead] at h
  | cons ch rest =>
    cases hd : ch.drop max with
    | nil =>
      simp only [connRead, hd, Option.some.injEq, Prod.mk.injEq] at h
      obtain ⟨rfl, rfl⟩ := h
      simp
    | cons d ds =>
      simp only [connRead, hd, Option.some.injEq, Prod.mk.injEq] at h
      obtain ⟨rfl, rfl⟩ := h
      have hlen : (d :: ds).length = ch.length - max := by rw [← hd, List.length_drop]
      simp only [List.length_cons] at hlen
      simp only [List.length_cons, List.length_take, le_refl, true_and]
      omega

theorem bufRead_measure {r r' : Reader} {n : Nat} {bs : Bytes}
    (h : bufRead r (n + 1) = some (bs, r')) :
    (n + 1 - bs.length) + r'.src.length < n + 1 + r.src.length := by
  unfold bufRead at h
  split at h
  · split at h
    · cases hr : connRead r.src (n + 1) with
      | none => simp [hr] at h
      | some p =>
        obtain ⟨b, s⟩ := p
        simp only [hr, Option.some.injEq, Prod.mk.injEq] at h
        obtain ⟨rfl, rfl⟩ := h
        have := connRead_length hr (by omega)
        simp only
        omega
    · cases hr : connRead r.src 4096 with
      | none => simp [hr] at h
      | some p =>
        obtain ⟨b, s⟩ := p
        simp only [hr, Option.some.injEq, Prod.mk.injEq] at h
        obtain ⟨rfl, rfl⟩ := h
        have := connRead_length hr (by omega)
        simp only [List.length_take]
        omega
  · rename_i hne
    simp only [Option.some.injEq, Prod.mk.injEq] at h
    obtain ⟨rfl, rfl⟩ := h
    have hpos : 0 < r.buf.length := List.length_pos.mpr hne
    simp only [List.length_take]
    omega

/-- The result of `io.ReadFull` on the reader is the same for every bound that covers the
bytes asked for and the pending reads. -/
theorem readFullRAux_fuel (f1 f2 : Nat) (r : Reader) (n : Nat)
    (h1 : n + r.src.length ≤ f1) (h2 : n + r.src.length ≤ f2) :
    readFullRAux f1 r n = readFullRAux f2 r n := by
  induction f1 generalizing f2 r n with
  | zero =>
    have hn : n = 0 := by omega
    subst hn
    cases f2 <;> simp [readFullRAux]
  | succ f1 ih =>
    cases n with
    | zero => cases f2 <;> simp [readFullRAux]
    | succ n =>
      cases f2 with
      | zero => omega
      | succ f2 =>
        unfold readFullRAux
        cases hr : bufRead r (n + 1) with
        | none => rfl
        | some p =>
          obtain ⟨bs, r'⟩ := p
          have hm := bufRead_measure hr
          simp only
          rw [ih f2 r' (n + 1 - bs.length) (by omega) (by omega)]

/-! ## `ReadString` on a known stream -/

theorem splitAfter_of_not_mem (d : Nat) (buf : Bytes) (h : d ∉ buf) : splitAfter d buf = none := by
  induction buf with
  | nil => rfl
  | cons b bs ih =>
    have hb : b ≠ d := fun e => h (by simp [e])
    have hbs : d ∉ bs := fun e => h (by simp [e])
    simp [splitAfter, hb, ih hbs]

theorem splitAfter_append (d : Nat) (pre rest : Bytes) (h : d ∉ pre) :
    splitAfter d (pre ++ d :: rest) = some (pre ++ [d], rest) := by
  induction pre with
  | nil => simp [splitAfter]
  | cons b bs ih =>
    have hb : b ≠ d := fun e => h (by simp [e])
    have hbs : d ∉ bs := fun e => h (by simp [e])
    simp [splitAfter, hb, ih hbs]

theorem connRead_flatten {src src' : Conn} {max : Nat} {bs : Bytes}
    (h : connRead src max = some (bs, src')) (hmax : 0 < max) (hne : ∀ ch ∈ src, ch ≠ []) :
    bs ++ src'.flatten = src.flatten ∧ bs ≠ [] ∧ (∀ ch ∈ src', ch ≠ []) := by
  cases src with
  | nil => simp [connRead] at h
  | cons ch rest =>
    have hch : ch ≠ [] := hne ch (by simp)
    have hrest : ∀ c ∈ rest, c ≠ [] := fun c hc => hne c (by simp [hc])
    cases hd : ch.drop max with
    | nil =>
      simp only [connRead, hd, Option.some.injEq, Prod.mk.injEq] at h
      obtain ⟨rfl, rfl⟩ := h
      exact ⟨by simp, hch, hrest⟩
    | cons d ds =>
      simp only [connRead, hd, Option.some.injEq, Prod.mk.injEq] at h
      obtain ⟨rfl, rfl⟩ := h
      refine ⟨?_, ?_, ?_⟩
      · simp only [List.flatten_cons, ← List.append_assoc, ← hd, List.take_append_drop]
      · intro ht
        have h0 := congrArg List.length ht
        simp only [List.length_take, List.length_nil] at h0
        have hl : 0 < ch.length := List.length_pos.mpr hch
        omega
      · intro c hc
        simp only [List.mem_cons] at hc
        rcases hc with rfl | hc
        · simp
        · exact hrest c hc

theorem fill_flatten {buf : Bytes} {src : Conn} (hb : buf.length < 4096)
    (hne : ∀ ch ∈ src, ch ≠ []) (hs : src ≠ []) (t : Nat) :
    ∃ buf' src', fill (t + 1) buf src = some (buf', src') ∧
      buf' ++ src'.flatten = buf ++ src.flatten ∧ (∀ ch ∈ src', ch ≠ []) := by
  cases hr : connRead src (4096 - buf.length) with
  | none =>
    cases src with
    | nil => exact absurd rfl hs
    | cons ch rest => simp only [connRead] at hr; split at hr <;> cases hr
  | some p =>
    obtain ⟨bs, s1⟩ := p
    obtain ⟨h1, h2, h3⟩ := connRead_flatten hr (by omega) hne
    cases bs with
    | nil => exact absurd rfl h2
    | cons b bs =>
      refine ⟨buf ++ b :: bs, s1, ?_, ?_, h3⟩
      · simp [fill, hr]
      · rw [List.append_assoc, h1]

theorem splitAfter_eq_none {d : Nat} {buf : Bytes} (h : splitAfter d buf = none) : d ∉ buf := by
  induction buf with
  | nil => simp
  | cons b bs ih =>
    unfold splitAfter at h
    split at h
    · cases h
    · rename_i hb
      cases hs : splitAfter d bs with
      | none =>
        intro hm
        simp only [List.mem_cons] at hm
        rcases hm with rfl | hm
        · exact hb rfl
        · exact ih hs hm
      | some p => simp [hs] at h

theorem splitAfter_spec {d : Nat} {buf l rest : Bytes} (h : splitAfter d buf = some (l, rest)) :
    ∃ bpre, l = bpre ++ [d] ∧ d ∉ bpre ∧ buf = bpre ++ d :: rest := by
  induction buf generalizing l with
  | nil => simp [splitAfter] at h
  | cons b bs ih =>
    unfold splitAfter at h
    split at h
    · rename_i hb
      simp only [Option.some.injEq, Prod.mk.injEq] at h
      obtain ⟨rfl, rfl⟩ := h
      exact ⟨[], by simp [hb]⟩
    · rename_i hb
      cases hs : splitAfter d bs with
      | none => simp [hs] at h
      | some p =>
        obtain ⟨l', r'⟩ := p
        simp only [hs, Option.some.injEq, Prod.mk.injEq] at h
        obtain ⟨rfl, rfl⟩ := h
        obtain ⟨bpre, h1, h2, h3⟩ := ih hs
        refine ⟨b :: bpre, by simp [h1], ?_, by simp [h3]⟩
        intro hm
        simp only [List.mem_cons] at hm
        rcases hm with rfl | hm
        · exact hb rfl
        · exact h2 hm

theorem append_cons_unique {d : Nat} {xs xs' ys ys' : Bytes} (h : d ∉ xs) (h' : d ∉ xs')
    (e : xs ++ d :: ys = xs' ++ d :: ys') : xs = xs' ∧ ys = ys' := by
  induction xs generalizing xs' with
  | nil =>
    cases xs' with
    | nil => simpa using e
    | cons b bs =>
      simp only [List.nil_append, List.cons_append, List.cons.injEq] at e
      exact absurd e.1 (fun hb => h' (by simp [hb]))
  | cons a as ih =>
    cases xs' with
    | nil =>
      simp only [List.nil_append, List.cons_append, List.cons.injEq] at e
      exact absurd e.1.symm (fun hb => h (by simp [hb]))
    | cons b bs =>
      simp only [List.cons_append, List.cons.injEq] at e
      have ha : d ∉ as := fun hm => h (by simp [hm])
      have hb : d ∉ bs := fun hm => h' (by simp [hm])
      obtain ⟨e1, e2⟩ := ih ha hb e.2
      exact ⟨by rw [e.1, e1], e2⟩

/-- The `ReadString` loop on a stream whose first delimiter stands after `pre`: it returns `pre`
with the delimiter and leaves the rest of the stream pending. -/
theorem readStringAux_flat (d : Nat) (fuel : List Unit) (acc : Bytes) (r : Reader)
    (pre rest : Bytes) (hf : (units r.src).length ≤ fuel.length) (hb : r.buf.length ≤ 4096)
    (hne : ∀ ch ∈ r.src, ch ≠ []) (hacc : d ∉ acc)
    (hst : acc ++ (r.buf ++ r.src.flatten) = pre ++ d :: rest) (hpre : d ∉ pre) :
    ∃ r', readStringAux d fuel acc r = some (pre ++ [d], r') ∧
      r'.buf ++ r'.src.flatten = rest ∧ (∀ ch ∈ r'.src, ch ≠ []) ∧ r'.buf.length ≤ 4096 := by
  induction fuel generalizing acc r with
  | nil =>
    have hs : r.src = [] := units_eq_nil (by simpa using hf)
    rw [readStringAux_nil_src d [] acc r hs]
    cases hsp : splitAfter d r.buf with
    | none =>
      exfalso
      have hnb := splitAfter_eq_none hsp
      have hm : d ∈ acc ++ (r.buf ++ r.src.flatten) := by rw [hst]; simp
      simp only [hs, List.flatten_nil, List.append_nil, List.mem_append] at hm
      rcases hm with hm | hm
      · exact hacc hm
      · exact hnb hm
    | some p =>
      obtain ⟨l, brest⟩ := p
      obtain ⟨bpre, h1, h2, h3⟩ := splitAfter_spec hsp
      have hnm : d ∉ acc ++ bpre := by
        simp only [List.mem_append, not_or]
        exact ⟨hacc, h2⟩
      have heq : (acc ++ bpre) ++ d :: (brest ++ r.src.flatten) = pre ++ d :: rest := by
        rw [← hst, h3]; simp
      obtain ⟨e1, e2⟩ := append_cons_unique hnm hpre heq
      refine ⟨⟨brest, r.src⟩, ?_, e2, hne, ?_⟩
      · simp only [h1, ← List.append_assoc, e1]
      · have : brest.length ≤ r.buf.length := by rw [h3]; simp; omega
        simp only
        omega
  | cons u fuel ih =>
    cases hsp : splitAfter d r.buf with
    | some p =>
      obtain ⟨l, brest⟩ := p
      obtain ⟨bpre, h1, h2, h3⟩ := splitAfter_spec hsp
      have hnm : d ∉ acc ++ bpre := by
        simp only [List.mem_append, not_or]
        exact ⟨hacc, h2⟩
      have heq : (acc ++ bpre) ++ d :: (brest ++ r.src.flatten) = pre ++ d :: rest := by
        rw [← hst, h3]; simp
      obtain ⟨e1, e2⟩ := append_cons_unique hnm hpre heq
      refine ⟨⟨brest, r.src⟩, ?_, e2, hne, ?_⟩
      · unfold readStringAux
        simp only [hsp, h1, ← List.append_assoc, e1]
      · have : brest.length ≤ r.buf.length := by rw [h3]; simp; omega
        simp only
        omega
    | none =>
      have hnb := splitAfter_eq_none hsp
      have hsrc : r.src ≠ [] := by
        intro hs
        have hm : d ∈ acc ++ (r.buf ++ r.src.flatten) := by rw [hst]; simp
        simp only [hs, List.flatten_nil, List.append_nil, List.mem_append] at hm
        rcases hm with hm | hm
        · exact hacc hm
        · exact hnb hm
      have hb0 : (if decide (4096 ≤ r.buf.length) = true then [] else r.buf).length < 4096 := by
        split
        · simp
        · rename_i hn
          simpa using hn
      obtain ⟨buf', src', hfill, hfl, hne'⟩ := fill_flatten hb0 hne hsrc 99
      have hu := fill_units hfill hb0
      have hacc' : d ∉ (if decide (4096 ≤ r.buf.length) = true then acc ++ r.buf else acc) := by
        split
        · simp only [List.mem_append, not_or]
          exact ⟨hacc, hnb⟩
        · exact hacc
      have hst' : (if decide (4096 ≤ r.buf.length) = true then acc ++ r.buf else acc)
          ++ (buf' ++ src'.flatten) = pre ++ d :: rest := by
        rw [hfl, ← hst]
        split <;> simp
      simp only [List.length_cons] at hf
      obtain ⟨r', hr1, hr2, hr3, hr4⟩ :=
        ih _ ⟨buf', src'⟩ (by simp only; omega) hu.2.2.1 hne' hacc' hst'
      refine ⟨r', ?_, hr2, hr3, hr4⟩
      unfold readStringAux
      simp only [hsp, hfill]
      exact hr1

/-- Method `ReadString` on a stream whose first delimiter stands after `pre`. -/
theorem readString_flat (d : Nat) (r : Reader) (pre rest : Bytes) (hb : r.buf.length ≤ 4096)
    (hne : ∀ ch ∈ r.src, ch ≠ []) (hst : r.buf ++ r.src.flatten = pre ++ d :: rest)
    (hpre : d ∉ pre) :
    ∃ r', readString d r = some (pre ++ [d], r') ∧
      r'.buf ++ r'.src.flatten = rest ∧ (∀ ch ∈ r'.src, ch ≠ []) ∧ r'.buf.length ≤ 4096 :=
  readStringAux_flat d (units r.src) [] r pre rest (Nat.le_refl _) hb hne (by simp)
    (by simpa using hst) hpre

/-! ## C12: methods that are not served -/

/-- C12. For an HTTP request whose request line has at least three fields and whose header
block is complete, with a method that is none of CONNECT, GET, POST, PUT, DELETE, HEAD,
OPTIONS, PATCH, TRACE (compared byte for byte), the only write to the client is
`HTTP/1.1 405 Method Not Allowed` followed by an empty line; `handleTunnel` and the dialer
are not called and nothing is sent on a tunnel. -/
theorem handleHTTP_method_not_allowed (env : Env) (conn : Conn) (fb : Nat)
    (requestLine m u v : Bytes) (more : List Bytes) (r r' : Reader) (hs : Headers)
    (ls : List Bytes)
    (h1 : readString 10 ⟨[], runeString fb :: conn⟩ = some (requestLine, r))
    (h2 : fields requestLine = m :: u :: v :: more)
    (h3 : readHeaders env r = some (hs, ls, r'))
    (hc : m ≠ str "CONNECT") (hm : m ∉ forwardMethods) :
    (handleHTTP env conn fb).clientWrites = [str "HTTP/1.1 405 Method Not Allowed\r\n\r\n"] ∧
    (handleHTTP env conn fb).tunnel = none ∧ (handleHTTP env conn fb).dials = 0 ∧
    (handleHTTP env conn fb).wsWrites = [] := by
  refine ⟨?_, ?_, ?_, ?_⟩ <;> simp [handleHTTP, h1, h2, h3, hc, hm]

theorem handleHTTP_method_not_allowed_witness :
    (handleHTTP envOK [str "ROPFIND /x HTTP/1.1\r\nHost: example.com\r\n\r\n"] 80).clientWrites =
        [str "HTTP/1.1 405 Method Not Allowed\r\n\r\n"] ∧
    (handleHTTP envOK [str "ROPFIND /x HTTP/1.1\r\nHost: example.com\r\n\r\n"] 80).tunnel = none ∧
    (handleHTTP envOK [str "ROPFIND /x HTTP/1.1\r\nHost: example.com\r\n\r\n"] 80).dials = 0 ∧
    (handleHTTP envOK [str "ROPFIND /x HTTP/1.1\r\nHost: example.com\r\n\r\n"] 80).wsWrites = [] :=
  handleHTTP_method_not_allowed envOK
    [str "ROPFIND /x HTTP/1.1\r\nHost: example.com\r\n\r\n"] 80
    (str "PROPFIND /x HTTP/1.1\r\n") (str "PROPFIND") (str "/x") (str "HTTP/1.1") []
    ⟨str "Host: example.com\r\n\r\n", []⟩ ⟨[], []⟩ [(str "host", str "example.com")]
    [str "Host: example.com"] (by decide) (by decide) (by decide) (by decide) (by decide)

/-! ## C13: the reply helpers -/

/-- C13. `sendErrorResponse` writes exactly `05 04 00 01 00 00 00 00 00 00` for SOCKS5 and
`HTTP/1.1 502 Bad Gateway` followed by an empty line for HTTP_CONNECT and for HTTP_FORWARD;
`sendSuccessResponse` writes exactly `05 00 00 01 00 00 00 00 00 00` for SOCKS5,
`HTTP/1.1 200 Connection Established` followed by an empty line for HTTP_CONNECT and nothing
for HTTP_FORWARD; and when the dial fails the writes of `handleTunnel` are those of
`sendErrorResponse`, after one call of the dialer. -/
theorem reply_helpers :
    sendErrorResponse ModeSOCKS5 =
        [[0x05, 0x04, 0x00, 0x01, 0x00, 0x00, 0x00, 0x00, 0x00, 0x00]] ∧
    sendErrorResponse ModeHTTPConnect = [str "HTTP/1.1 502 Bad Gateway\r\n\r\n"] ∧
    sendErrorResponse ModeHTTPProxy = [str "HTTP/1.1 502 Bad Gateway\r\n\r\n"] ∧
    sendSuccessResponse ModeSOCKS5 =
        [[0x05, 0x00, 0x00, 0x01, 0x00, 0x00, 0x00, 0x00, 0x00, 0x00]] ∧
    sendSuccessResponse ModeHTTPConnect =
        [str "HTTP/1.1 200 Connection Established\r\n\r\n"] ∧
    sendSuccessResponse ModeHTTPProxy = [] ∧
    (∀ (env : Env) (conn : Conn) (target : Bytes) (mode : Nat) (ff : Option Bytes),
      env.dialOk = false →
      (handleTunnel env conn target mode ff).clientWrites = sendErrorResponse mode ∧
      (handleTunnel env conn target mode ff).dials = 1 ∧
      (handleTunnel env conn target mode ff).failed = true ∧
      (handleTunnel env conn target mode ff).relaying = false) := by
  refine ⟨by decide, by decide, by decide, by decide, by decide, by decide, ?_⟩
  intro env conn target mode ff hd
  simp [handleTunnel, hd]

theorem reply_helpers_witness :
    (handleTunnel { envOK with dialOk := false } [] (str "example.com:443") ModeSOCKS5
        none).clientWrites = [[0x05, 0x04, 0x00, 0x01, 0x00, 0x00, 0x00, 0x00, 0x00, 0x00]] :=
  (reply_helpers.2.2.2.2.2.2 { envOK with dialOk := false } [] (str "example.com:443")
    ModeSOCKS5 none (by decide)).1

/-! ## C14: the handshake reply -/

/-- C14, as the code has it. When the dial and the connect frame succeed and the reply frame
carries `r`: the relay is started exactly when `r` is the literal `CONNECTED` and the write of
the success reply succeeds (or the mode has no success reply to write); with `r` equal to
`CONNECTED` the writes to the client are the success reply of the mode, and an error is
returned exactly when that write fails; for every other `r` the writes to the client are
the failure reply of the mode and nothing else, `handleTunnel` returns an error and the
relay is not started. -/
theorem handleTunnel_handshake_reply (env : Env) (conn : Conn) (target : Bytes) (mode : Nat)
    (ff : Option Bytes) (ty : Nat) (r : Bytes) (hd : env.dialOk = true)
    (hws : env.wsWriteOk = true) (hr : env.wsReply = some (ty, r)) :
    ((handleTunnel env conn target mode ff).relaying = true ↔
      r = str "CONNECTED" ∧ (sendSuccessResponse mode = [] ∨ env.writeOk = true)) ∧
    (r = str "CONNECTED" →
      (handleTunnel env conn target mode ff).clientWrites = sendSuccessResponse mode ∧
      ((handleTunnel env conn target mode ff).failed = true ↔
        sendSuccessResponse mode ≠ [] ∧ env.writeOk = false)) ∧
    (r ≠ str "CONNECTED" →
      (handleTunnel env conn target mode ff).clientWrites = sendErrorResponse mode ∧
      (handleTunnel env conn target mode ff).failed = true ∧
      (handleTunnel env conn target mode ff).relaying = false) := by
  by_cases hc : r = str "CONNECTED"
  · subst hc
    have hp : (str "ERROR:").isPrefixOf (str "CONNECTED") = false := by decide
    by_cases hs : sendSuccessResponse mode = []
    · simp [handleTunnel, hd, hws, hr, hp, hs, -List.isPrefixOf_iff_prefix]
    · cases hw : env.writeOk <;>
        simp [handleTunnel, hd, hws, hr, hp, hs, hw, -List.isPrefixOf_iff_prefix]
  · by_cases hp : (str "ERROR:").isPrefixOf r = true
    · simp [handleTunnel, hd, hws, hr, hc, hp, -List.isPrefixOf_iff_prefix]
    · simp [handleTunnel, hd, hws, hr, hc, hp, -List.isPrefixOf_iff_prefix]

theorem handleTunnel_handshake_reply_witness :
    (handleTunnel { envOK with wsReply := some (TextMessage, str "ERROR:upstream refused") } []
        (str "example.com:443") ModeHTTPConnect none).clientWrites =
      sendErrorResponse ModeHTTPConnect ∧
    (handleTunnel { envOK with wsReply := some (TextMessage, str "ERROR:upstream refused") } []
        (str "example.com:443") ModeHTTPConnect none).failed = true ∧
    (handleTunnel { envOK with wsReply := some (TextMessage, str "ERROR:upstream refused") } []
        (str "example.com:443") ModeHTTPConnect none).relaying = false :=
  (handleTunnel_handshake_reply
    { envOK with wsReply := some (TextMessage, str "ERROR:upstream refused") } []
    (str "example.com:443") ModeHTTPConnect none TextMessage (str "ERROR:upstream refused")
    (by decide) (by decide) (by decide)).2.2 (by decide)

/-- C14 as stated fails: the reply is exactly `CONNECTED`, the write of the SOCKS5 success
reply fails, and `handleTunnel` returns an error without starting the relay. -/
theorem handleTunnel_handshake_counterexample :
    ({ envOK with writeOk := false } : Env).wsReply = some (TextMessage, str "CONNECTED") ∧
    (handleTunnel { envOK with writeOk := false } [] (str "example.com:443") ModeSOCKS5
        none).relaying = false ∧
    (handleTunnel { envOK with writeOk := false } [] (str "example.com:443") ModeSOCKS5
        none).failed = true := by
  decide

/-! ## C15: the tunnel-to-client direction -/

/-- One pass of the tunnel-to-client loop on a frame that is not the close sentinel. -/
theorem tunnelToClient_cons (env : Env) (hw : env.writeOk = true) (mt : Nat) (msg : Bytes)
    (rest : List (Nat × Bytes)) (h : ¬ (mt = TextMessage ∧ msg = str "CLOSE")) :
    tunnelToClient env ((mt, msg) :: rest) =
      { clientWrites := msg :: (tunnelToClient env rest).clientWrites,
        done := (tunnelToClient env rest).done } := by
  simp [tunnelToClient, h, hw]

theorem tunnelToClient_done (env : Env) (frames : List (Nat × Bytes)) :
    (tunnelToClient env frames).done = true := by
  induction frames with
  | nil => rfl
  | cons f rest ih =>
    obtain ⟨mt, msg⟩ := f
    unfold tunnelToClient
    split
    · rfl
    · split
      · rfl
      · exact ih

/-- C15, as the code has it. In the tunnel-to-client direction: a text frame with payload
`CLOSE` completes the session, none of its bytes is written to the client and no later frame
is read; every other frame (a binary frame with any payload, also `CLOSE`, or a text frame
other than `CLOSE`) has its payload passed to `conn.Write` as it is; when that write succeeds
the loop goes on with the next frame, when it fails the session is completed and no later
frame is written.  So on a socket that accepts writes the writes are the payloads, in order,
of the frames before the first close sentinel. -/
theorem tunnelToClient_frames (env : Env) :
    (∀ rest : List (Nat × Bytes),
      tunnelToClient env ((TextMessage, str "CLOSE") :: rest) = { done := true }) ∧
    (∀ (mt : Nat) (msg : Bytes) (rest : List (Nat × Bytes)),
      ¬ (mt = TextMessage ∧ msg = str "CLOSE") → env.writeOk = true →
      (tunnelToClient env ((mt, msg) :: rest)).clientWrites =
          msg :: (tunnelToClient env rest).clientWrites ∧
        (tunnelToClient env ((mt, msg) :: rest)).done = (tunnelToClient env rest).done) ∧
    (∀ (mt : Nat) (msg : Bytes) (rest : List (Nat × Bytes)),
      ¬ (mt = TextMessage ∧ msg = str "CLOSE") → env.writeOk = false →
      tunnelToClient env ((mt, msg) :: rest) = { clientWrites := [msg], done := true }) ∧
    (∀ pre post : List (Nat × Bytes),
      (∀ f ∈ pre, ¬ (f.1 = TextMessage ∧ f.2 = str "CLOSE")) → env.writeOk = true →
      (tunnelToClient env (pre ++ (TextMessage, str "CLOSE") :: post)).clientWrites =
          pre.map (fun f => f.2) ∧
        (tunnelToClient env (pre ++ (TextMessage, str "CLOSE") :: post)).done = true) := by
  refine ⟨?_, ?_, ?_, ?_⟩
  · intro rest
    simp [tunnelToClient]
  · intro mt msg rest h hw
    rw [tunnelToClient_cons env hw mt msg rest h]
    exact ⟨rfl, rfl⟩
  · intro mt msg rest h hw
    simp [tunnelToClient, h, hw]
  · intro pre post hpre hw
    refine ⟨?_, tunnelToClient_done env _⟩
    induction pre with
    | nil => simp [tunnelToClient]
    | cons f pre ih =>
      obtain ⟨mt, msg⟩ := f
      have hf : ¬ (mt = TextMessage ∧ msg = str "CLOSE") := hpre (mt, msg) (by simp)
      have hrest : ∀ g ∈ pre, ¬ (g.1 = TextMessage ∧ g.2 = str "CLOSE") :=
        fun g hg => hpre g (by simp [hg])
      rw [List.cons_append, tunnelToClient_cons env hw mt msg _ hf]
      simp [ih hrest]

theorem tunnelToClient_frames_witness :
    (tunnelToClient envOK
        ([(BinaryMessage, str "CLOSE"), (TextMessage, str "hello")]
          ++ (TextMessage, str "CLOSE") :: [(BinaryMessage, str "late")])).clientWrites =
      [str "CLOSE", str "hello"] ∧
    (tunnelToClient envOK
        ([(BinaryMessage, str "CLOSE"), (TextMessage, str "hello")]
          ++ (TextMessage, str "CLOSE") :: [(BinaryMessage, str "late")])).done = true :=
  (tunnelToClient_frames envOK).2.2.2
    [(BinaryMessage, str "CLOSE"), (TextMessage, str "hello")] [(BinaryMessage, str "late")]
    (by decide) (by decide)

/-- C15 as stated fails: when the write of the first frame to the client fails the session
is completed and the next frame is not written, so the relay does not continue. -/
theorem tunnelToClient_counterexample :
    tunnelToClient { envOK with writeOk := false }
        [(BinaryMessage, str "a"), (BinaryMessage, str "b")] =
      { clientWrites := [str "a"], done := true } ∧
    (tunnelToClient { envOK with writeOk := false }
        [(BinaryMessage, str "a"), (BinaryMessage, str "b")]).clientWrites ≠
      [str "a", str "b"] := by
  decide

/-! ## C16: the client-to-tunnel direction -/

theorem connRead_whole (ch : Bytes) (rest : Conn) (max : Nat) (h : ch.length ≤ max) :
    connRead (ch :: rest) max = some (ch, rest) := by
  simp [connRead, List.drop_eq_nil_iff.mpr h]

theorem clientToTunnelAux_eq (wsOk : Nat → Bool) (hok : ∀ k, wsOk k = true) (conn : Conn)
    (fuel : List Unit) (k : Nat) (hf : (units conn).length ≤ fuel.length)
    (hsz : ∀ ch ∈ conn, ch.length ≤ 32 * 1024) :
    clientToTunnelAux wsOk fuel k conn =
      { wsWrites := conn.map (fun ch => (BinaryMessage, ch)) ++ [(TextMessage, str "CLOSE")],
        done := true } := by
  induction conn generalizing fuel k with
  | nil =>
    cases fuel with
    | nil => rfl
    | cons u fuel => simp [clientToTunnelAux, connRead]
  | cons ch rest ih =>
    cases fuel with
    | nil => rw [units_cons] at hf; simp at hf
    | cons u fuel =>
      have hch : ch.length ≤ 32 * 1024 := hsz ch (by simp)
      have hrest : ∀ c ∈ rest, c.length ≤ 32 * 1024 := fun c hc => hsz c (by simp [hc])
      have hf' : (units rest).length ≤ fuel.length := by
        rw [units_cons] at hf
        simp only [List.length_cons] at hf
        omega
      unfold clientToTunnelAux
      rw [connRead_whole ch rest _ hch]
      simp [hok k, ih fuel (k + 1) hf' hrest]

/-- C16, as the code has it. In the client-to-tunnel direction, for reads of the 32 KiB
buffer that are not empty, when the tunnel accepts every frame: the frames written to the
tunnel are one binary frame for each successful read, carrying the bytes of that read, in
order, followed by exactly one text frame `CLOSE` when the read error occurs; completion is
then signalled. -/
theorem clientToTunnel_frames (wsOk : Nat → Bool) (conn : Conn) (hok : ∀ k, wsOk k = true)
    (_hne : ∀ ch ∈ conn, ch ≠ []) (hsz : ∀ ch ∈ conn, ch.length ≤ 32 * 1024) :
    (clientToTunnel wsOk conn).wsWrites =
        conn.map (fun ch => (BinaryMessage, ch)) ++ [(TextMessage, str "CLOSE")] ∧
    (clientToTunnel wsOk conn).done = true ∧ (clientToTunnel wsOk conn).clientWrites = [] := by
  unfold clientToTunnel
  rw [clientToTunnelAux_eq wsOk hok conn (units conn) 0 (Nat.le_refl _) hsz]
  exact ⟨rfl, rfl, rfl⟩

theorem clientToTunnel_frames_witness :
    (clientToTunnel (fun _ => true) [str "ab", str "c"]).wsWrites =
        [str "ab", str "c"].map (fun ch => (BinaryMessage, ch))
          ++ [(TextMessage, str "CLOSE")] ∧
    (clientToTunnel (fun _ => true) [str "ab", str "c"]).done = true ∧
    (clientToTunnel (fun _ => true) [str "ab", str "c"]).clientWrites = [] :=
  clientToTunnel_frames (fun _ => true) [str "ab", str "c"] (fun _ => rfl) (by decide)
    (by decide)

/-- C16 as stated fails: when the tunnel refuses the first binary frame the direction signals
completion at once; the second read is not forwarded and no `CLOSE` frame is sent. -/
theorem clientToTunnel_counterexample :
    clientToTunnel (fun _ => false) [str "hi", str "there"] =
      { wsWrites := [(BinaryMessage, str "hi")], done := true } ∧
    (clientToTunnel (fun _ => false) [str "hi", str "there"]).wsWrites ≠
      [(BinaryMessage, str "hi"), (BinaryMessage, str "there"), (TextMessage, str "CLOSE")] := by
  decide

/-! ## C17: bytes after the first request on the forward path -/

/-- C17 at the failing input. A second request that arrives in the same read as the first
stays in the buffer of the reader of `handleHTTP`: the connect frame carries only the first
request, the socket handed to the relay is empty, and the client-to-tunnel direction sends
nothing but the `CLOSE` frame.  When the second request arrives in a read of its own it is
relayed as one binary frame. -/
theorem handleHTTP_buffered_bytes_lost :
    (handleHTTP envOK
        [str "ET /a HTTP/1.1\r\nHost: example.com\r\n\r\nGET /b HTTP/1.1\r\n\r\n"] 71).relaying =
      true ∧
    (handleHTTP envOK
        [str "ET /a HTTP/1.1\r\nHost: example.com\r\n\r\nGET /b HTTP/1.1\r\n\r\n"] 71).wsWrites =
      [(TextMessage, str "CONNECT:example.com:80|GET /a HTTP/1.1\r\nHost: example.com\r\n\r\n")] ∧
    (clientToTunnel (fun _ => true)
        (handleHTTP envOK
          [str "ET /a HTTP/1.1\r\nHost: example.com\r\n\r\nGET /b HTTP/1.1\r\n\r\n"]
          71).conn).wsWrites =
      [(TextMessage, str "CLOSE")] ∧
    (clientToTunnel (fun _ => true)
        (handleHTTP envOK
          [str "ET /a HTTP/1.1\r\nHost: example.com\r\n\r\n", str "GET /b HTTP/1.1\r\n\r\n"]
          71).conn).wsWrites =
      [(BinaryMessage, str "GET /b HTTP/1.1\r\n\r\n"), (TextMessage, str "CLOSE")] := by
  decide

/-! ## C20: the SOCKS5 parser reads no further than the request -/

theorem connRead_append {src src' : Conn} {max : Nat} {bs : Bytes}
    (h : connRead src max = some (bs, src')) :
    bs ++ src'.flatten = src.flatten ∧ bs.length ≤ max := by
  cases src with
  | nil => simp [connRead] at h
  | cons ch rest =>
    cases hd : ch.drop max with
    | nil =>
      simp only [connRead, hd, Option.some.injEq, Prod.mk.injEq] at h
      obtain ⟨rfl, rfl⟩ := h
      exact ⟨by simp, List.drop_eq_nil_iff.mp hd⟩
    | cons d ds =>
      simp only [connRead, hd, Option.some.injEq, Prod.mk.injEq] at h
      obtain ⟨rfl, rfl⟩ := h
      refine ⟨?_, ?_⟩
      · simp only [List.flatten_cons, ← List.append_assoc, ← hd, List.take_append_drop]
      · simp only [List.length_take]
        omega

/-- The early-data read moves bytes from the socket into the first frame and loses none. -/
theorem earlyRead_append (env : Env) (conn : Conn) (mode : Nat) :
    (earlyRead env conn mode none).1.getD [] ++ (earlyRead env conn mode none).2.flatten =
      conn.flatten := by
  unfold earlyRead
  split
  · cases hr : (if env.earlyData = true then connRead conn (32 * 1024) else none) with
    | none => simp
    | some p =>
      obtain ⟨bs, c'⟩ := p
      have hc : connRead conn (32 * 1024) = some (bs, c') := by
        split at hr
        · exact hr
        · cases hr
      obtain ⟨h1, h2⟩ := connRead_append hc
      simp only
      split
      · simpa using h1
      · split
        · rename_i hgt
          omega
        · rename_i hpos hgt
          have h0 : bs = [] := by
            apply List.eq_nil_of_length_eq_zero
            by_contra hne
            exact hpos ⟨Nat.pos_of_ne_zero hne, h2⟩
          subst h0
          simpa using h1
  · simp

/-- C20. For a well-formed SOCKS5 CONNECT request, after the sniffed version byte the handler
takes exactly `1 + nmethods + 4 + A + 2` bytes from the client stream before it calls
`handleTunnel`, with `A = 4` for address type 1, `A = 1 + ` the domain length for type 3 and
`A = 16` for type 4: `handleTunnel` runs on a socket whose pending bytes are exactly the rest
of the stream, and the early-data read moves these bytes into the first frame or leaves them
on the socket for the relay, unchanged. -/
theorem handleSOCKS5_reads_exactly (env : Env) (conn : Conn) (nm rsv hi lo : Nat)
    (methods tail : Bytes) (hm : methods.length = nm) (hw : env.writeOk = true) :
    (∀ a b c d : Nat,
      conn.flatten = nm :: methods ++ [5, 1, rsv, 1, a, b, c, d, hi, lo] ++ tail →
      conn.flatten.drop (1 + nm + 4 + 4 + 2) = tail ∧
      ∃ (c' : Conn) (target : Bytes), c'.flatten = tail ∧
        handleSOCKS5 env conn 5 =
          Trace.after [0x05, 0x00] (handleTunnel env c' target ModeSOCKS5 none) ∧
        (earlyRead env c' ModeSOCKS5 none).1.getD []
          ++ (earlyRead env c' ModeSOCKS5 none).2.flatten = tail) ∧
    (∀ dom : Bytes,
      conn.flatten = nm :: methods ++ [5, 1, rsv, 3, dom.length] ++ dom ++ [hi, lo] ++ tail →
      conn.flatten.drop (1 + nm + 4 + (1 + dom.length) + 2) = tail ∧
      ∃ (c' : Conn) (target : Bytes), c'.flatten = tail ∧
        handleSOCKS5 env conn 5 =
          Trace.after [0x05, 0x00] (handleTunnel env c' target ModeSOCKS5 none) ∧
        (earlyRead env c' ModeSOCKS5 none).1.getD []
          ++ (earlyRead env c' ModeSOCKS5 none).2.flatten = tail) ∧
    (∀ addr : Bytes, addr.length = 16 →
      conn.flatten = nm :: methods ++ [5, 1, rsv, 4] ++ addr ++ [hi, lo] ++ tail →
      conn.flatten.drop (1 + nm + 4 + 16 + 2) = tail ∧
      ∃ (c' : Conn) (target : Bytes), c'.flatten = tail ∧
        handleSOCKS5 env conn 5 =
          Trace.after [0x05, 0x00] (handleTunnel env c' target ModeSOCKS5 none) ∧
        (earlyRead env c' ModeSOCKS5 none).1.getD []
          ++ (earlyRead env c' ModeSOCKS5 none).2.flatten = tail) := by
  refine ⟨?_, ?_, ?_⟩
  · intro a b c d h
    have h' : conn.flatten =
        [nm] ++ (methods ++ ([5, 1, rsv, 1] ++ ([a, b, c, d] ++ ([hi, lo] ++ tail)))) := by
      rw [h]; simp
    obtain ⟨c1, j1, e⟩ := handleSOCKS5_header env hm hw h'
    obtain ⟨c2, e2, j2⟩ := readHost_v4 j1
    obtain ⟨c3, e3, j3⟩ := readFull_of_flatten (n := 2) j2 rfl
    refine ⟨?_, c3, dotted a b c d ++ str ":" ++ fmtD (hi <<< 8 ||| lo), j3, ?_, ?_⟩
    · have hl : (nm :: methods ++ [5, 1, rsv, 1, a, b, c, d, hi, lo]).length
          = 1 + nm + 4 + 4 + 2 := by
        simp [hm]; omega
      rw [h, ← hl, List.drop_left]
    · rw [e, e2]
      simp [e3]
    · rw [earlyRead_append, j3]
  · intro dom h
    have h' : conn.flatten =
        [nm] ++ (methods ++ ([5, 1, rsv, 3] ++ ([dom.length] ++ (dom ++ ([hi, lo] ++ tail))))) := by
      rw [h]; simp
    obtain ⟨c1, j1, e⟩ := handleSOCKS5_header env hm hw h'
    obtain ⟨c2, e2, j2⟩ := readHost_domain j1
    obtain ⟨c3, e3, j3⟩ := readFull_of_flatten (n := 2) j2 rfl
    refine ⟨?_, c3, dom ++ str ":" ++ fmtD (hi <<< 8 ||| lo), j3, ?_, ?_⟩
    · have hl : (nm :: methods ++ [5, 1, rsv, 3, dom.length] ++ dom ++ [hi, lo]).length
          = 1 + nm + 4 + (1 + dom.length) + 2 := by
        simp [hm]; omega
      rw [h, ← hl, List.drop_left]
    · rw [e, e2]
      simp [e3]
    · rw [earlyRead_append, j3]
  · intro addr hl16 h
    have h' : conn.flatten =
        [nm] ++ (methods ++ ([5, 1, rsv, 4] ++ (addr ++ ([hi, lo] ++ tail)))) := by
      rw [h]; simp
    obtain ⟨c1, j1, e⟩ := handleSOCKS5_header env hm hw h'
    obtain ⟨c2, e2, j2⟩ := readHost_v6 hl16 j1
    obtain ⟨c3, e3, j3⟩ := readFull_of_flatten (n := 2) j2 rfl
    refine ⟨?_, c3, str "[" ++ ipString addr ++ str "]:" ++ fmtD (hi <<< 8 ||| lo), j3, ?_, ?_⟩
    · have hl : (nm :: methods ++ [5, 1, rsv, 4] ++ addr ++ [hi, lo]).length
          = 1 + nm + 4 + 16 + 2 := by
        simp [hm, hl16]; omega
      rw [h, ← hl, List.drop_left]
    · rw [e, e2]
      simp [e3]
    · rw [earlyRead_append, j3]

theorem handleSOCKS5_reads_exactly_witness :
    List.drop (1 + 1 + 4 + (1 + (str "a.b").length) + 2)
        (List.flatten [[1, 0, 5, 1, 0, 3, 3, 97, 46, 98, 0, 80, 22, 3], [1]]) = [22, 3, 1] ∧
    ∃ (c' : Conn) (target : Bytes), c'.flatten = [22, 3, 1] ∧
      handleSOCKS5 envOK [[1, 0, 5, 1, 0, 3, 3, 97, 46, 98, 0, 80, 22, 3], [1]] 5 =
        Trace.after [0x05, 0x00] (handleTunnel envOK c' target ModeSOCKS5 none) ∧
      (earlyRead envOK c' ModeSOCKS5 none).1.getD []
        ++ (earlyRead envOK c' ModeSOCKS5 none).2.flatten = [22, 3, 1] :=
  (handleSOCKS5_reads_exactly envOK [[1, 0, 5, 1, 0, 3, 3, 97, 46, 98, 0, 80, 22, 3], [1]]
    1 0 0 80 [0] [22, 3, 1] (by decide) (by decide)).2.1 (str "a.b") (by decide)

/-! ## `io.ReadFull` on the reader, on a known stream -/

theorem connRead_eq_none {src : Conn} {max : Nat} (h : connRead src max = none) : src = [] := by
  cases src with
  | nil => rfl
  | cons ch rest =>
    simp only [connRead] at h
    split at h <;> cases h

/-- One `Read` of the reader fails only at the end of the stream. -/
theorem bufRead_eq_none {r : Reader} {n : Nat} (h : bufRead r n = none) :
    r.buf ++ r.src.flatten = [] := by
  unfold bufRead at h
  split at h
  · rename_i hb
    split at h
    · cases hr : connRead r.src n with
      | none => simp [hb, connRead_eq_none hr]
      | some p => simp [hr] at h
    · cases hr : connRead r.src 4096 with
      | none => simp [hb, connRead_eq_none hr]
      | some p => simp [hr] at h
  · cases h

/-- One `Read` of the reader hands out the next bytes of the stream, at most `n`. -/
theorem bufRead_stream {r r' : Reader} {n : Nat} {bs : Bytes}
    (h : bufRead r n = some (bs, r')) :
    bs ++ (r'.buf ++ r'.src.flatten) = r.buf ++ r.src.flatten ∧ bs.length ≤ n := by
  unfold bufRead at h
  split at h
  · rename_i hb
    split at h
    · cases hr : connRead r.src n with
      | none => simp [hr] at h
      | some p =>
        obtain ⟨b, s⟩ := p
        simp only [hr, Option.some.injEq, Prod.mk.injEq] at h
        obtain ⟨rfl, rfl⟩ := h
        obtain ⟨h1, h2⟩ := connRead_append hr
        simp [hb, h1, h2]
    · cases hr : connRead r.src 4096 with
      | none => simp [hr] at h
      | some p =>
        obtain ⟨b, s⟩ := p
        simp only [hr, Option.some.injEq, Prod.mk.injEq] at h
        obtain ⟨rfl, rfl⟩ := h
        obtain ⟨h1, _⟩ := connRead_append hr
        refine ⟨?_, ?_⟩
        · simp only [hb, List.nil_append, ← List.append_assoc, List.take_append_drop, h1]
        · simp only [List.length_take]
          omega
  · simp only [Option.some.injEq, Prod.mk.injEq] at h
    obtain ⟨rfl, rfl⟩ := h
    refine ⟨?_, ?_⟩
    · simp only [← List.append_assoc, List.take_append_drop]
    · simp only [List.length_take]
      omega

/-- The `io.ReadFull` loop on the reader: it succeeds exactly when the stream holds `n` more
bytes, returns the next `n` bytes and leaves the rest pending. -/
theorem readFullRAux_stream (f : Nat) (r : Reader) (n : Nat) (hf : n + r.src.length ≤ f) :
    (n ≤ (r.buf ++ r.src.flatten).length →
      ∃ r', readFullRAux f r n = some ((r.buf ++ r.src.flatten).take n, r') ∧
        r'.buf ++ r'.src.flatten = (r.buf ++ r.src.flatten).drop n) ∧
    ((r.buf ++ r.src.flatten).length < n → readFullRAux f r n = none) := by
  induction f generalizing r n with
  | zero =>
    have hn : n = 0 := by omega
    subst hn
    exact ⟨fun _ => ⟨r, by simp [readFullRAux]⟩, fun h => by simp at h⟩
  | succ f ih =>
    cases n with
    | zero => exact ⟨fun _ => ⟨r, by simp [readFullRAux]⟩, fun h => by simp at h⟩
    | succ n =>
      cases hr : bufRead r (n + 1) with
      | none =>
        have he := bufRead_eq_none hr
        refine ⟨fun h => ?_, fun _ => ?_⟩
        · rw [he] at h
          simp at h
        · simp [readFullRAux, hr]
      | some p =>
        obtain ⟨bs, r1⟩ := p
        obtain ⟨hs1, hs2⟩ := bufRead_stream hr
        have hm := bufRead_measure hr
        obtain ⟨ih1, ih2⟩ := ih r1 (n + 1 - bs.length) (by omega)
        have hlen : (r.buf ++ r.src.flatten).length
            = bs.length + (r1.buf ++ r1.src.flatten).length := by
          rw [← hs1, List.length_append]
        refine ⟨fun h => ?_, fun h => ?_⟩
        · obtain ⟨r', e1, e2⟩ := ih1 (by omega)
          have ht : ∀ s1 : Bytes,
              List.take (n + 1) (bs ++ s1) = bs ++ List.take (n + 1 - bs.length) s1 :=
            fun s1 => by rw [List.take_append_eq_append_take, List.take_of_length_le hs2]
          have hdr : ∀ s1 : Bytes,
              List.drop (n + 1) (bs ++ s1) = List.drop (n + 1 - bs.length) s1 :=
            fun s1 => by
              rw [List.drop_append_eq_append_drop, List.drop_of_length_le hs2, List.nil_append]
          refine ⟨r', ?_, ?_⟩
          · rw [← hs1, ht]
            simp only [readFullRAux, hr, e1]
          · rw [e2, ← hs1, hdr]
        · have e := ih2 (by omega)
          simp only [readFullRAux, hr, e]

theorem readFullR_stream (r : Reader) (n : Nat) :
    (n ≤ (r.buf ++ r.src.flatten).length →
      ∃ r', readFullR r n = some ((r.buf ++ r.src.flatten).take n, r') ∧
        r'.buf ++ r'.src.flatten = (r.buf ++ r.src.flatten).drop n) ∧
    ((r.buf ++ r.src.flatten).length < n → readFullR r n = none) :=
  readFullRAux_stream (n + r.src.length + 1) r n (by omega)

/-! ## C11: the body of the rebuilt request -/

theorem atoi_nil : atoi [] = none := by decide

/-- The body is the next `n` bytes when the Content-Length value denotes `n` with
`0 < n < 10485760` and the stream holds `n` more bytes. -/
theorem readBody_appended {r : Reader} {cl : Bytes} {n : Nat}
    (hcl : atoi cl = some (n : Int)) (hn : n < 10485760)
    (hs : n ≤ (r.buf ++ r.src.flatten).length) :
    (readBody r cl).1 = (r.buf ++ r.src.flatten).take n := by
  obtain ⟨r', e1, _⟩ := (readFullR_stream r n).1 hs
  rw [readBody_eq hcl hn e1]

/-- No body is read in every other case. -/
theorem readBody_empty {r : Reader} {cl : Bytes}
    (h : ¬ ∃ n : Nat, atoi cl = some (n : Int) ∧ 0 < n ∧ n < 10485760 ∧
      n ≤ (r.buf ++ r.src.flatten).length) :
    (readBody r cl).1 = [] := by
  unfold readBody
  split
  · cases ha : atoi cl with
    | none => rfl
    | some i =>
      simp only
      split
      · rename_i hi
        have hnat : i = ((i.toNat : Nat) : Int) := (Int.toNat_of_nonneg (le_of_lt hi.1)).symm
        have hlt : (r.buf ++ r.src.flatten).length < i.toNat := by
          by_contra hc
          apply h
          refine ⟨i.toNat, ?_, ?_, ?_, ?_⟩
          · rw [ha, ← hnat]
          · omega
          · omega
          · omega
        rw [(readFullR_stream r i.toNat).2 hlt]
      · rfl
  · rfl

/-- C11. For a forward request that is forwarded (its target is not empty), with `cl` the
value recorded for Content-Length and `rest` the stream after the blank line: when `cl` is
numeric and denotes `n` with `0 < n < 10485760` and `rest` holds at least `n` bytes, the first
frame is the rebuilt head followed by exactly the first `n` bytes of `rest`; in every other
case (no value, not numeric, zero, negative, 10485760 or more, fewer than `n` bytes to read)
the first frame is the rebuilt head, ending with the blank line.  In both cases
`handleTunnel` is called. -/
theorem handleHTTP_body (env : Env) (conn : Conn) (fb : Nat) (requestLine m p v : Bytes)
    (more : List Bytes) (r r' : Reader) (hs : Headers) (ls : List Bytes)
    (h1 : readString 10 ⟨[], runeString fb :: conn⟩ = some (requestLine, r))
    (h2 : fields requestLine = m :: p :: v :: more)
    (hm : m ∈ forwardMethods)
    (h3 : readHeaders env r = some (hs, ls, r'))
    (ht : (splitURL p (hs.get (str "host"))).1 ≠ []) :
    (∀ n : Nat, atoi (hs.get (str "content-length")) = some (n : Int) → 0 < n → n < 10485760 →
      n ≤ (r'.buf ++ r'.src.flatten).length →
      (handleHTTP env conn fb).tunnel =
        some ⟨withPort (splitURL p (hs.get (str "host"))).1, ModeHTTPProxy,
          some (m ++ str " " ++ (splitURL p (hs.get (str "host"))).2 ++ str " " ++ v
            ++ str "\r\n" ++ writeHeaders env ls ++ str "\r\n"
            ++ (r'.buf ++ r'.src.flatten).take n)⟩) ∧
    ((¬ ∃ n : Nat, atoi (hs.get (str "content-length")) = some (n : Int) ∧ 0 < n ∧
        n < 10485760 ∧ n ≤ (r'.buf ++ r'.src.flatten).length) →
      (handleHTTP env conn fb).tunnel =
        some ⟨withPort (splitURL p (hs.get (str "host"))).1, ModeHTTPProxy,
          some (m ++ str " " ++ (splitURL p (hs.get (str "host"))).2 ++ str " " ++ v
            ++ str "\r\n" ++ writeHeaders env ls ++ str "\r\n")⟩) := by
  refine ⟨?_, ?_⟩
  · intro n hcl _ hn hlen
    rw [handleHTTP_forward env h1 h2 hm h3, if_neg ht, handleTunnel_tunnel,
      readBody_appended hcl hn hlen]
  · intro hno
    rw [handleHTTP_forward env h1 h2 hm h3, if_neg ht, handleTunnel_tunnel,
      readBody_empty hno, List.append_nil]

theorem handleHTTP_body_witness :
    (handleHTTP envOK
        [str "OST /x HTTP/1.1\r\nHost: example.com\r\nContent-Length: 9\r\n\r\nabc", str "de"]
        80).tunnel =
      some ⟨str "example.com:80", ModeHTTPProxy,
        some (str "POST /x HTTP/1.1\r\nHost: example.com\r\nContent-Length: 9\r\n\r\n")⟩ :=
  (handleHTTP_body envOK
    [str "OST /x HTTP/1.1\r\nHost: example.com\r\nContent-Length: 9\r\n\r\nabc", str "de"] 80
    (str "POST /x HTTP/1.1\r\n") (str "POST") (str "/x") (str "HTTP/1.1") []
    ⟨str "Host: example.com\r\nContent-Length: 9\r\n\r\nabc", [str "de"]⟩
    ⟨str "abc", [str "de"]⟩
    [(str "content-length", str "9"), (str "host", str "example.com")]
    [str "Host: example.com", str "Content-Length: 9"]
    (by decide) (by decide) (by decide) (by decide) (by decide)).2
    (by
      rintro ⟨n, hn, h0, _, hl⟩
      have h9 : atoi (Headers.get [(str "content-length", str "9"), (str "host", str "example.com")]
          (str "content-length")) = some 9 := by decide
      rw [h9] at hn
      have hl' : n ≤ 5 := hl
      have : (9 : Int) = (n : Int) := Option.some.inj hn
      omega)

/-! ## The header loop on a known stream -/

theorem spaceLen_lf (rest : Bytes) : spaceLen (10 :: rest) = 1 := by
  simp [spaceLen]

/-- No field of `strings.Fields` holds a line feed. -/
theorem fieldsAux_no_lf (s : Bytes) (k : Nat) (cur f : Bytes) (hf : f ∈ fieldsAux k cur s)
    (hcur : 10 ∉ cur) : 10 ∉ f := by
  induction s generalizing k cur with
  | nil =>
    simp only [fieldsAux] at hf
    split at hf
    · simp at hf
    · simp only [List.mem_singleton] at hf
      rw [hf]; exact hcur
  | cons b rest ih =>
    cases k with
    | succ k =>
      simp only [fieldsAux] at hf
      exact ih k cur hf hcur
    | zero =>
      simp only [fieldsAux] at hf
      split at hf
      · rename_i h0
        have hb : b ≠ 10 := by
          rintro rfl
          rw [spaceLen_lf] at h0
          cases h0
        apply ih 0 (cur ++ [b]) hf
        simp only [List.mem_append, List.mem_singleton, not_or]
        exact ⟨hcur, fun e => hb e.symm⟩
      · split at hf
        · exact ih _ [] hf (by simp)
        · simp only [List.mem_cons] at hf
          rcases hf with rfl | hf
          · exact hcur
          · exact ih _ [] hf (by simp)

theorem fields_no_lf {s f : Bytes} (hf : f ∈ fields s) : 10 ∉ f :=
  fieldsAux_no_lf s 0 [] f hf (by simp)

/-- Trimming the terminator of a line that holds no other CR or LF gives the line back. -/
theorem trimRightCRLF_line (l : Bytes) (hne : l ≠ []) (h10 : 10 ∉ l) (h13 : 13 ∉ l) :
    trimRightCRLF (l ++ [13, 10]) = l := by
  unfold trimRightCRLF
  have hr : (l ++ [13, 10]).reverse = 10 :: 13 :: l.reverse := by simp
  rw [hr]
  cases hl : l.reverse with
  | nil =>
    exfalso
    apply hne
    simpa using hl
  | cons a t =>
    have ha : a ∈ l := by
      have : a ∈ l.reverse := by rw [hl]; simp
      simpa using this
    have h1 : a ≠ 13 := fun e => h13 (e ▸ ha)
    have h2 : a ≠ 10 := fun e => h10 (e ▸ ha)
    simp only [List.dropWhile, decide_eq_true_eq, true_or, or_true, decide_True, h1, h2,
      or_self, decide_False]
    rw [← hl, List.reverse_reverse]

theorem trimRightCRLF_blank : trimRightCRLF [13, 10] = [] := by decide

/-- The header loop on a stream that holds the header lines `ls`, each followed by CRLF and
free of other CR and LF, then the blank line: it records the lines in order, the header map is
the fold of `recordHeader` over them, and the stream after the blank line stays pending. -/
theorem readHeadersAux_flat (env : Env) (ls : List Bytes) (fuel : List Unit) (r : Reader)
    (hs0 : Headers) (ls0 : List Bytes) (rest : Bytes)
    (hb : r.buf.length ≤ 4096) (hne : ∀ ch ∈ r.src, ch ≠ [])
    (hf : r.buf.length + (units r.src).length < fuel.length)
    (hl : ∀ l ∈ ls, l ≠ [] ∧ 10 ∉ l ∧ 13 ∉ l)
    (hst : r.buf ++ r.src.flatten = ls.flatMap (fun l => l ++ [13, 10]) ++ ([13, 10] ++ rest)) :
    ∃ r', readHeadersAux env fuel r hs0 ls0 =
        some (ls.foldl (recordHeader env) hs0, ls0 ++ ls, r') ∧
      r'.buf ++ r'.src.flatten = rest ∧ r'.buf.length ≤ 4096 ∧ (∀ ch ∈ r'.src, ch ≠ []) := by
  induction ls generalizing fuel r hs0 ls0 with
  | nil =>
    cases fuel with
    | nil => simp at hf
    | cons u fuel =>
      have hst' : r.buf ++ r.src.flatten = [13] ++ 10 :: rest := by simpa using hst
      obtain ⟨r', e1, e2, e3, e4⟩ := readString_flat 10 r [13] rest hb hne hst' (by decide)
      refine ⟨r', ?_, e2, e4, e3⟩
      have e1' : readString 10 r = some ([13, 10], r') := e1
      simp only [readHeadersAux, e1', trimRightCRLF_blank, if_true, List.foldl_nil,
        List.append_nil]
  | cons l ls ih =>
    cases fuel with
    | nil => simp at hf
    | cons u fuel =>
      obtain ⟨hl1, hl2, hl3⟩ := hl l (by simp)
      have hls : ∀ x ∈ ls, x ≠ [] ∧ 10 ∉ x ∧ 13 ∉ x := fun x hx => hl x (by simp [hx])
      have hst' : r.buf ++ r.src.flatten =
          (l ++ [13]) ++ 10 :: (ls.flatMap (fun l => l ++ [13, 10]) ++ ([13, 10] ++ rest)) := by
        rw [hst]; simp
      have hpre : 10 ∉ l ++ [13] := by
        simp only [List.mem_append, List.mem_singleton, not_or]
        exact ⟨hl2, by decide⟩
      obtain ⟨r1, e1, e2, e3, e4⟩ := readString_flat 10 r (l ++ [13]) _ hb hne hst' hpre
      have hc := readString_consumes e1 hb
      have hline : l ++ [13] ++ [10] = l ++ [13, 10] := by simp
      have htrim : trimRightCRLF (l ++ [13, 10]) = l := trimRightCRLF_line l hl1 hl2 hl3
      rw [hline] at e1
      simp only [List.length_cons] at hf
      obtain ⟨r', f1, f2, f3, f4⟩ :=
        ih fuel r1 (recordHeader env hs0 l) (ls0 ++ [l]) e4 e3 (by omega) hls e2
      refine ⟨r', ?_, f2, f3, f4⟩
      simp only [readHeadersAux, e1, htrim, hl1, if_false, f1, List.foldl_cons,
        List.append_assoc, List.singleton_append]

theorem readHeaders_flat (env : Env) (ls : List Bytes) (r : Reader) (rest : Bytes)
    (hb : r.buf.length ≤ 4096) (hne : ∀ ch ∈ r.src, ch ≠ [])
    (hl : ∀ l ∈ ls, l ≠ [] ∧ 10 ∉ l ∧ 13 ∉ l)
    (hst : r.buf ++ r.src.flatten = ls.flatMap (fun l => l ++ [13, 10]) ++ ([13, 10] ++ rest)) :
    ∃ r', readHeaders env r = some (ls.foldl (recordHeader env) [], ls, r') ∧
      r'.buf ++ r'.src.flatten = rest ∧ r'.buf.length ≤ 4096 ∧ (∀ ch ∈ r'.src, ch ≠ []) := by
  have h := readHeadersAux_flat env ls (() :: r.buf.map (fun _ => ()) ++ units r.src) r [] []
    rest hb hne (by simp) hl hst
  simpa [readHeaders] using h

/-! ## C19: requests that need no rewriting -/

theorem str_space : str " " = [32] := rfl

theorem str_crlf : str "\r\n" = [13, 10] := rfl

theorem forwardMethods_head {m : Bytes} (hm : m ∈ forwardMethods) :
    ∃ c t, m = c :: t ∧ c < 0x80 := by
  simp only [forwardMethods, List.mem_cons, List.mem_singleton, List.not_mem_nil, or_false] at hm
  rcases hm with rfl | rfl | rfl | rfl | rfl | rfl | rfl | rfl
  · exact ⟨71, [69, 84], rfl, by decide⟩
  · exact ⟨80, [79, 83, 84], rfl, by decide⟩
  · exact ⟨80, [85, 84], rfl, by decide⟩
  · exact ⟨68, [69, 76, 69, 84, 69], rfl, by decide⟩
  · exact ⟨72, [69, 65, 68], rfl, by decide⟩
  · exact ⟨79, [80, 84, 73, 79, 78, 83], rfl, by decide⟩
  · exact ⟨80, [65, 84, 67, 72], rfl, by decide⟩
  · exact ⟨84, [82, 65, 67, 69], rfl, by decide⟩

/-- C19. Rebuilding is the identity on requests that need no rewriting.  Let the client
stream (sniffed byte included, split into non-empty reads in any way) start with a request
made of: a request line `m p v` of exactly three fields separated by single spaces and ended
by CRLF, with a forward method `m` and a request-URI `p` without the `http://` prefix; header
lines `ls`, each non-empty, ended by CRLF and free of other CR and LF, none named
`Proxy-Connection` or `Proxy-Authorization`; the blank line; and a body that is empty when no
Content-Length value is recorded, or has the `n` bytes of a Content-Length `n` with
`0 < n < 10485760`.  With a non-empty Host value, the first frame handed to `handleTunnel` is
that request, byte for byte. -/
theorem handleHTTP_identity (env : Env) (conn : Conn) (fb : Nat) (m p v : Bytes)
    (ls : List Bytes) (body rest : Bytes)
    (hm : m ∈ forwardMethods)
    (hp : (str "http://").isPrefixOf p = false)
    (hfields : fields (m ++ str " " ++ p ++ str " " ++ v ++ str "\r\n") = [m, p, v])
    (hl : ∀ l ∈ ls, l ≠ [] ∧ 10 ∉ l ∧ 13 ∉ l ∧ isProxyHeader env l = false)
    (hhost : (headersOf env ls).get (str "host") ≠ [])
    (hbody : ((headersOf env ls).get (str "content-length") = [] ∧ body = []) ∨
      ∃ n : Nat, atoi ((headersOf env ls).get (str "content-length")) = some (n : Int) ∧
        0 < n ∧ n < 10485760 ∧ body.length = n)
    (hne : ∀ ch ∈ conn, ch ≠ [])
    (hst : fb :: conn.flatten =
      m ++ str " " ++ p ++ str " " ++ v ++ str "\r\n"
        ++ ls.flatMap (fun l => l ++ str "\r\n") ++ str "\r\n" ++ body ++ rest) :
    (handleHTTP env conn fb).tunnel =
      some ⟨withPort ((headersOf env ls).get (str "host")), ModeHTTPProxy,
        some (m ++ str " " ++ p ++ str " " ++ v ++ str "\r\n"
          ++ ls.flatMap (fun l => l ++ str "\r\n") ++ str "\r\n" ++ body)⟩ := by
  -- the sniffed byte is the first byte of the method
  obtain ⟨c, t, hmc, hc⟩ := forwardMethods_head hm
  have hfb : fb = c := by
    rw [hmc] at hst
    simp only [List.cons_append, List.cons.injEq] at hst
    exact hst.1
  have hrune : runeString fb = [fb] := by
    rw [hfb]
    simp [runeString, hc]
  -- the request line
  have hmem : ∀ f ∈ [m, p, v], 10 ∉ f := by
    intro f hf
    rw [← hfields] at hf
    exact fields_no_lf hf
  have hpre : 10 ∉ m ++ [32] ++ p ++ [32] ++ v ++ [13] := by
    have h1 := hmem m (by simp)
    have h2 := hmem p (by simp)
    have h3 := hmem v (by simp)
    simp only [List.mem_append, List.mem_singleton, not_or]
    exact ⟨⟨⟨⟨⟨h1, by decide⟩, h2⟩, by decide⟩, h3⟩, by decide⟩
  have hst0 : (Reader.mk [] (runeString fb :: conn)).buf
      ++ (Reader.mk [] (runeString fb :: conn)).src.flatten =
      (m ++ [32] ++ p ++ [32] ++ v ++ [13]) ++ 10 ::
        (ls.flatMap (fun l => l ++ [13, 10]) ++ ([13, 10] ++ (body ++ rest))) := by
    rw [hrune]
    simp only [List.nil_append, List.flatten_cons, List.singleton_append]
    rw [hst, str_space, str_crlf]
    simp
  have hne0 : ∀ ch ∈ (Reader.mk [] (runeString fb :: conn)).src, ch ≠ [] := by
    intro ch hch
    simp only [List.mem_cons] at hch
    rcases hch with rfl | hch
    · rw [hrune]; simp
    · exact hne ch hch
  obtain ⟨r1, e1, e2, e3, e4⟩ :=
    readString_flat 10 ⟨[], runeString fb :: conn⟩ _ _ (by simp) hne0 hst0 hpre
  have hline : m ++ [32] ++ p ++ [32] ++ v ++ [13] ++ [10]
      = m ++ str " " ++ p ++ str " " ++ v ++ str "\r\n" := by
    rw [str_space, str_crlf]; simp
  rw [hline] at e1
  -- the header block
  have hl' : ∀ l ∈ ls, l ≠ [] ∧ 10 ∉ l ∧ 13 ∉ l := fun l h => ⟨(hl l h).1, (hl l h).2.1, (hl l h).2.2.1⟩
  obtain ⟨r', f1, f2, _, _⟩ := readHeaders_flat env ls r1 (body ++ rest) e4 e3 hl' e2
  have f1' : readHeaders env r1 = some (headersOf env ls, ls, r') := f1
  -- the forward branch
  rw [handleHTTP_forward env e1 hfields hm f1', splitURL_origin p _ hp]
  simp only [hhost, if_false]
  rw [handleTunnel_tunnel, writeHeaders_eq]
  have hfilter : ls.filter (fun l => !isProxyHeader env l) = ls := by
    rw [List.filter_eq_self]
    intro l h
    simp [(hl l h).2.2.2]
  rw [hfilter]
  have hb : (readBody r' ((headersOf env ls).get (str "content-length"))).1 = body := by
    rcases hbody with ⟨hcl, rfl⟩ | ⟨n, hcl, h0, hn, hlen⟩
    · apply readBody_empty
      rintro ⟨n, hn, _⟩
      rw [hcl, atoi_nil] at hn
      cases hn
    · rw [readBody_appended hcl hn (by rw [f2, List.length_append]; omega), f2]
      exact List.take_left' hlen
  rw [hb]

theorem handleHTTP_identity_witness :
    (handleHTTP envOK
        [str "ET /x HTTP/1.1\r\nHo", str "st: example.com\r\nContent-Length: 5\r\n\r\nhel",
         str "loEXTRA"] 71).tunnel =
      some ⟨str "example.com:80", ModeHTTPProxy,
        some (str "GET /x HTTP/1.1\r\nHost: example.com\r\nContent-Length: 5\r\n\r\nhello")⟩ :=
  handleHTTP_identity envOK
    [str "ET /x HTTP/1.1\r\nHo", str "st: example.com\r\nContent-Length: 5\r\n\r\nhel",
     str "loEXTRA"] 71 (str "GET") (str "/x") (str "HTTP/1.1")
    [str "Host: example.com", str "Content-Length: 5"] (str "hello") (str "EXTRA")
    (by decide) (by decide) (by decide) (by decide) (by decide)
    (Or.inr ⟨5, by decide, by decide, by decide, by decide⟩) (by decide) (by decide)

end Proxy
